import Mathlib

/-!
Verification of the MovieLens ingestion pipeline (`backend/seed_movielens.py`
and `backend/app/crud.py`) against its specification.

Modelling conventions (shallow embedding):
* Python `str` is modelled as `List Char` (abbreviated `Str` below); `str.strip()`
  is `stripChars` (Lean `Char.isWhitespace` stands in for Python's whitespace class,
  ASCII digits stand in for `\d`).
* Python `float` rating values are modelled as exact rationals `ℚ`.
* The SQLAlchemy session/database is modelled as an explicit `Catalog` state value
  threaded through each CRUD call; related rows are embedded by value.
* Fallible Python code (raising exceptions) returns `Option`/`Except`.
-/

/-- Python strings are modelled as lists of characters. -/
abbrev Str := List Char

/-- Shorthand to write a concrete modelled Python string. -/
def lit (s : String) : Str := s.toList

/-- `str.strip()`'s whitespace class (modelled by Lean's `Char.isWhitespace`). -/
def isSpaceChar (c : Char) : Bool := c.isWhitespace

/-- Python `s.strip()`: drop whitespace from both ends. -/
def stripChars (s : Str) : Str :=
  ((s.dropWhile isSpaceChar).reverse.dropWhile isSpaceChar).reverse

/-- Numeric value of an ASCII digit character. -/
def digitVal (c : Char) : Nat := c.toNat - '0'.toNat

/-- Helper for `extract_year_from_title`: the regex
`^(.+?)\s*\((\d{4})\)$` of `seed_movielens.py:40`, applied to the already
stripped string `s`, examined from the right end (`r` is `s.reverse`).
Anchored at `$`, the regex can only match with `\)` at the last character,
`\d{4}` at the four characters before it and `\(` before those, and `.+?`
requires at least one further character to the left (`\s*` may be empty). -/
def extractRev (s : Str) (r : Str) : Str × Option Nat :=
  match r with
  | ')' :: d4 :: d3 :: d2 :: d1 :: '(' :: c :: rest =>
      if d1.isDigit && d2.isDigit && d3.isDigit && d4.isDigit then
        -- group(1) plus the `\s*` gap are the characters before `\(`;
        -- `match.group(1).strip()` is their stripped form.
        (stripChars (c :: rest).reverse,
         some (digitVal d1 * 1000 + digitVal d2 * 100 + digitVal d3 * 10 + digitVal d4))
      else (s, none)
  | _ => (s, none)

/-- `extract_year_from_title` (`seed_movielens.py:38-45`): extract the year from
the MovieLens title format `Movie Title (YYYY)`. -/
def extract_year_from_title (title : Str) : Str × Option Nat :=
  let s := stripChars title
  extractRev s s.reverse

/-- Python `genre_string.split("|")` (non-empty separator semantics:
`"".split("|") = [""]`, `"a||b".split("|") = ["a","","b"]`). -/
def splitOnChar (sep : Char) : Str → List Str
  | [] => [[]]
  | c :: cs =>
      let r := splitOnChar sep cs
      if c = sep then [] :: r
      else
        match r with
        | t :: ts => (c :: t) :: ts
        | [] => [[c]]

/-- `parse_genres` (`seed_movielens.py:48-52`): parse the MovieLens genre string
into a list.  `if not genre_string or genre_string == "(no genres listed)"`
returns `[]`; otherwise `[g.strip() for g in genre_string.split("|") if g.strip()]`. -/
def parse_genres (genre_string : Str) : List Str :=
  if genre_string = [] ∨ genre_string = lit "(no genres listed)" then []
  else ((splitOnChar '|' genre_string).map stripChars).filter (fun t => !t.isEmpty)

/-- Round-half-to-even on rationals (Python's `round` tie-breaking rule). -/
def roundHalfEven (q : ℚ) : ℤ :=
  let f := ⌊q⌋
  if q - f < 1/2 then f
  else if 1/2 < q - f then f + 1
  else if 2 ∣ f then f else f + 1

/-- Python `round(x, 2)` with float values modelled as exact rationals. -/
def round2 (q : ℚ) : ℚ := (roundHalfEven (q * 100) : ℚ) / 100

/-- One step of `ratings_data[movie_id].append(rating)` over the
`defaultdict(list)` of `calculate_ratings` (`seed_movielens.py:58-66`),
modelled as an insertion-ordered association list. -/
def addRating (acc : List (Int × List ℚ)) (e : Int × ℚ) : List (Int × List ℚ) :=
  if acc.any (fun p => p.1 == e.1) then
    acc.map (fun p => if p.1 == e.1 then (p.1, p.2 ++ [e.2]) else p)
  else acc ++ [(e.1, [e.2])]

/-- `calculate_ratings` (`seed_movielens.py:55-78`) applied to the parsed
`(movieId, rating)` events of `ratings.csv`: group the events by movie id in
encounter order, then map each group to `(round(avg_rating, 2), len(ratings))`. -/
def calculate_ratings (events : List (Int × ℚ)) : List (Int × (ℚ × Nat)) :=
  (events.foldl addRating []).map
    (fun p => (p.1, (round2 (p.2.sum / (p.2.length : ℚ)), p.2.length)))

/-- Dictionary lookup in the `movie_ratings` mapping. -/
def lookupRating (tbl : List (Int × (ℚ × Nat))) (mid : Int) : Option (ℚ × Nat) :=
  (tbl.find? (fun p => p.1 == mid)).map (fun p => p.2)

/-- Format specifier `f"{hash_val:03d}"` for values in `[0, 1000)`. -/
def pad3 (v : Int) : Str :=
  let n := v.toNat
  [Nat.digitChar (n / 100), Nat.digitChar (n / 10 % 10), Nat.digitChar (n % 10)]

/-- `deterministic_placeholder_director` (`seed_movielens.py:130-134`).
Lean's `%` on `Int` (Euclidean) agrees with Python's `%` for the positive
modulus `1000`. -/
def deterministic_placeholder_director (movie_ml_id : Int) : Str :=
  lit "Director_" ++ pad3 ((movie_ml_id * 17 + 42) % 1000)

/-- `deterministic_placeholder_actors` (`seed_movielens.py:137-144`): the loop
`for i in range(top_n)` appending `f"Actor_{hash_val:03d}"`. -/
def deterministic_placeholder_actors (movie_ml_id : Int) (top_n : Nat := 5) : List Str :=
  (List.range top_n).map
    (fun i : Nat => lit "Actor_" ++ pad3 ((movie_ml_id * 23 + (i : Int) * 13) % 1000))

/-! ### Data model (`backend/app/models.py`), embedded by value -/

/-- `models.Genre` (`models.py:68-75`): identity key is the name. -/
structure Genre where
  name : Str
deriving DecidableEq, Repr

/-- `models.Director` (`models.py:57-65`). -/
structure Director where
  name : Str
  bio : Option Str
deriving DecidableEq, Repr

/-- `models.Actor` (`models.py:44-54`); the fields never written by the
ingestion pipeline (`tmdb_person_id`, `profile_image_url`) are omitted. -/
structure Actor where
  name : Str
  bio : Option Str
deriving DecidableEq, Repr

/-- `models.Movie` (`models.py:22-41`); related rows are embedded by value,
timestamps are omitted. -/
structure Movie where
  ml_id : Int
  tmdb_id : Option Nat
  title : Str
  release_year : Option Nat
  description : Option Str
  rating : Option ℚ
  rating_count : Nat
  poster_url : Option Str
  director : Option Director
  actors : List Actor
  genres : List Genre
deriving DecidableEq, Repr

/-- The database, modelled as four tables in insertion order. -/
structure Catalog where
  genres : List Genre
  directors : List Director
  actors : List Actor
  movies : List Movie
deriving DecidableEq, Repr

/-- The empty database. -/
def emptyCatalog : Catalog := ⟨[], [], [], []⟩

/-! ### Entity resolution and upsert (`backend/app/crud.py`) -/

/-- `get_or_create_genre` (`crud.py:7-15`): query the first genre with the
given name; if absent, add a new one. -/
def get_or_create_genre (db : Catalog) (name : Str) : Genre × Catalog :=
  match db.genres.find? (fun g => g.name == name) with
  | some g => (g, db)
  | none =>
      let g : Genre := ⟨name⟩
      (g, { db with genres := db.genres ++ [g] })

/-- `get_or_create_director` (`crud.py:18-26`). -/
def get_or_create_director (db : Catalog) (name : Str) (bio : Option Str) :
    Director × Catalog :=
  match db.directors.find? (fun d => d.name == name) with
  | some d => (d, db)
  | none =>
      let d : Director := ⟨name, bio⟩
      (d, { db with directors := db.directors ++ [d] })

/-- `get_or_create_actor` (`crud.py:29-37`). -/
def get_or_create_actor (db : Catalog) (name : Str) (bio : Option Str) :
    Actor × Catalog :=
  match db.actors.find? (fun a => a.name == name) with
  | some a => (a, db)
  | none =>
      let a : Actor := ⟨name, bio⟩
      (a, { db with actors := db.actors ++ [a] })

/-- Replace the first element satisfying `p` by its image under `f`,
leaving everything else in place (the in-place row update of the ORM). -/
def updateFirst (p : α → Bool) (f : α → α) : List α → List α
  | [] => []
  | x :: xs => if p x then f x :: xs else x :: updateFirst p f xs

/-- The mutation performed on a found movie by the update branch of
`create_or_update_movie_by_ml_id` (`crud.py:57-67` and `crud.py:83-87`):
scalar fields are overwritten unconditionally, the director only when one
is supplied (`if director:`), and each relationship set only when the
parameter is not `None`. -/
def updateMovieFields (title : Str) (release_year : Option Nat)
    (description : Option Str) (rating : Option ℚ) (rating_count : Nat)
    (poster_url : Option Str) (tmdb_id : Option Nat)
    (director : Option Director) (actors : Option (List Actor))
    (genres : Option (List Genre)) (mv : Movie) : Movie :=
  let mv := { mv with title := title, release_year := release_year,
                      description := description, rating := rating,
                      rating_count := rating_count, poster_url := poster_url,
                      tmdb_id := tmdb_id }
  let mv := match director with
            | some d => { mv with director := some d }
            | none => mv
  let mv := match actors with
            | some a => { mv with actors := a }
            | none => mv
  let mv := match genres with
            | some g => { mv with genres := g }
            | none => mv
  mv

/-- `create_or_update_movie_by_ml_id` (`crud.py:40-91`): look up a movie by
`ml_id`; update the existing row in place, or create a new one (whose
relationship collections start empty and receive the same conditional
assignments of `crud.py:83-87`). Returns the resulting movie and catalog. -/
def create_or_update_movie_by_ml_id (db : Catalog) (ml_id : Int) (title : Str)
    (release_year : Option Nat) (description : Option Str) (rating : Option ℚ)
    (rating_count : Nat) (poster_url : Option Str) (tmdb_id : Option Nat)
    (director : Option Director) (actors : Option (List Actor))
    (genres : Option (List Genre)) : Movie × Catalog :=
  let upd := updateMovieFields title release_year description rating
               rating_count poster_url tmdb_id director actors genres
  match db.movies.find? (fun mv => mv.ml_id == ml_id) with
  | some mv =>
      (upd mv,
       { db with movies := updateFirst (fun m => m.ml_id == ml_id) upd db.movies })
  | none =>
      let base : Movie :=
        { ml_id := ml_id, tmdb_id := tmdb_id, title := title,
          release_year := release_year, description := description,
          rating := rating, rating_count := rating_count,
          poster_url := poster_url, director := director,
          actors := [], genres := [] }
      let mv := updateMovieFields title release_year description rating
                  rating_count poster_url tmdb_id director actors genres base
      (mv, { db with movies := db.movies ++ [mv] })

/-! ### Enrichment (`seed_movielens.py:81-199`)

The remote TMDb service is modelled as a pure oracle.  `TMDbEnricher.search_movie`
returns `None` on any transport error, non-success response, or empty result set
(`seed_movielens.py:89-105`), so the oracle answers either with the search outcome
or with `raised`, standing for an exception escaping the enrichment call (which
`seed_movies` catches at its per-row boundary, `seed_movielens.py:243-248`). -/

/-- The credits payload consumed by `enrich_movie_with_tmdb`:
crew entries as (job, name) pairs and cast names in order. -/
structure Credits where
  crew : List (Str × Str)
  cast : List Str
deriving DecidableEq, Repr

/-- A TMDb search hit together with the credits the enricher would fetch
for its id (`None` when `get_movie_credits` fails). -/
structure SearchHit where
  tmdb_id : Nat
  poster_path : Option Str
  credits : Option Credits
deriving DecidableEq, Repr

/-- Outcome of one enrichment attempt for a (title, year) pair. -/
inductive EnrichOutcome where
  /-- an exception escapes the enrichment call -/
  | raised : EnrichOutcome
  /-- `search_movie` returned this (with `none` covering transport errors,
  non-success responses and empty result sets) -/
  | searched : Option SearchHit → EnrichOutcome
deriving DecidableEq, Repr

/-- The remote service as a deterministic function of the searched title/year. -/
abbrev Oracle := Str → Option Nat → EnrichOutcome

/-- `crud.get_or_create_actor` applied to a list of names in order
(the `for actor_data in top_actors` / `for actor_name in actor_names` loops). -/
def gocActors (names : List Str) (bio : Option Str) (db : Catalog) :
    List Actor × Catalog :=
  match names with
  | [] => ([], db)
  | n :: ns =>
      let a := get_or_create_actor db n bio
      let rest := gocActors ns bio a.2
      (a.1 :: rest.1, rest.2)

/-- `crud.get_or_create_genre` applied to a list of names in order
(the list comprehension of `seed_movielens.py:234`). -/
def gocGenres (names : List Str) (db : Catalog) : List Genre × Catalog :=
  match names with
  | [] => ([], db)
  | n :: ns =>
      let g := get_or_create_genre db n
      let rest := gocGenres ns g.2
      (g.1 :: rest.1, rest.2)

/-- The director resolution of `enrich_movie_with_tmdb`
(`seed_movielens.py:169-174`): the first crew member whose job is
`Director`, resolved through `get_or_create_director`. -/
def enrichDirector (credits : Credits) (db : Catalog) : Option Director × Catalog :=
  match (credits.crew.filter (fun c => c.1 == lit "Director")).head? with
  | some c =>
      let d := get_or_create_director db c.2 none
      (some d.1, d.2)
  | none => (none, db)

/-- `poster_url = f"https://image.tmdb.org/t/p/w500{poster_path}" if poster_path
else None` (`seed_movielens.py:161`); Python's `if poster_path` is also false on
an empty string. -/
def posterUrlOf (poster_path : Option Str) : Option Str :=
  match poster_path with
  | some p =>
      if p.isEmpty then none
      else some (lit "https://image.tmdb.org/t/p/w500" ++ p)
  | none => none

/-- `enrich_movie_with_tmdb` (`seed_movielens.py:147-185`) given the search
outcome: extract tmdb id and poster url, find the first crew member whose job
is `Director`, and resolve the top 8 cast entries. -/
def enrich_movie_with_tmdb (hit? : Option SearchHit) (db : Catalog) :
    (Option Nat × Option Str × Option Director × List Actor) × Catalog :=
  match hit? with
  | none => ((none, none, none, []), db)
  | some hit =>
      let poster_url : Option Str := posterUrlOf hit.poster_path
      match hit.credits with
      | none => ((some hit.tmdb_id, poster_url, none, []), db)
      | some credits =>
          let dres := enrichDirector credits db
          let ares := gocActors (credits.cast.take 8) none dres.2
          ((some hit.tmdb_id, poster_url, dres.1, ares.1), ares.2)

/-- `create_placeholder_data` (`seed_movielens.py:188-199`). -/
def create_placeholder_data (movie_ml_id : Int) (db : Catalog) :
    (Director × List Actor) × Catalog :=
  let dres := get_or_create_director db (deterministic_placeholder_director movie_ml_id)
                (some (lit "Placeholder director"))
  let ares := gocActors (deterministic_placeholder_actors movie_ml_id)
                (some (lit "Placeholder actor")) dres.2
  ((dres.1, ares.1), ares.2)

/-! ### The seeding run (`seed_movielens.py:202-285`) -/

/-- One parsed CSV row of `movies.csv` (its three consumed columns, still raw). -/
structure Row where
  movieId : Str
  title : Str
  genres : Str
deriving DecidableEq, Repr

/-- Python `int(s)` on a string: optional surrounding whitespace, optional
sign, then a non-empty digit run (digit-group underscores are not modelled);
`none` models the `ValueError` it raises otherwise. -/
def digitsToNat (ds : Str) : Option Nat :=
  if ds.isEmpty then none
  else if ds.all Char.isDigit then
    some (ds.foldl (fun acc c => acc * 10 + digitVal c) 0)
  else none

/-- See `digitsToNat`. -/
def pyInt (s : Str) : Option Int :=
  match stripChars s with
  | '-' :: ds => (digitsToNat ds).map (fun n => -(n : Int))
  | '+' :: ds => (digitsToNat ds).map (fun n => (n : Int))
  | ds => (digitsToNat ds).map (fun n => (n : Int))

/-- The decimal rendering of the year inside `f"A {year} film"`. -/
def natDecimal (n : Nat) : Str := Nat.toDigits 10 n

/-- `f"A {year} film" if year else "A classic film"` (`seed_movielens.py:262`):
Python's `if year` is false both for `None` and for `0`. -/
def descriptionFor (year : Option Nat) : Str :=
  match year with
  | some y =>
      if y == 0 then lit "A classic film"
      else lit "A " ++ natDecimal y ++ lit " film"
  | none => lit "A classic film"

/-- Lines `seed_movielens.py:236-248`: the defaults
`tmdb_id = None; poster_url = None; director = None; actors = []`, replaced by
the result of `enrich_movie_with_tmdb` when an enricher is configured and the
enrichment call does not raise (a raised exception is caught and logged,
keeping the defaults). -/
def enrichStep (enricher : Option Oracle) (title : Str) (year : Option Nat)
    (db : Catalog) : (Option Nat × Option Str × Option Director × List Actor) × Catalog :=
  match enricher with
  | none => ((none, none, none, []), db)
  | some orc =>
      match orc title year with
      | .raised => ((none, none, none, []), db)
      | .searched hit? => enrich_movie_with_tmdb hit? db

/-- Lines `seed_movielens.py:250-254`: create placeholder data if TMDb
enrichment failed or is disabled; placeholder actors are only used when
enrichment produced no actors (`if not actors`). -/
def placeholderStep (movie_id : Int) (director : Option Director)
    (actors : List Actor) (db : Catalog) : (Director × List Actor) × Catalog :=
  match director with
  | some d => ((d, actors), db)
  | none =>
      let pres := create_placeholder_data movie_id db
      ((pres.1.1, if actors.isEmpty then pres.1.2 else actors), pres.2)

/-- `movie_ratings.get(movie_id, (None, 0))` (`seed_movielens.py:230`). -/
def ratingFromTable (o : Option (ℚ × Nat)) : Option ℚ × Nat :=
  match o with
  | some rc => (some rc.1, rc.2)
  | none => (none, 0)

/-- The body of the `for row in reader` loop of `seed_movies`
(`seed_movielens.py:221-274`), processing one row against the catalog.
`Except.error` models an exception escaping the iteration (only the
`int(row['movieId'])` conversion can raise outside the guarded enrichment
block); the enrichment `try/except` of `seed_movielens.py:243-248` catches
the `raised` outcome and falls through with the placeholder defaults. -/
def processRow (enricher : Option Oracle) (movie_ratings : List (Int × (ℚ × Nat)))
    (db : Catalog) (row : Row) : Except String Catalog :=
  match pyInt row.movieId with
  | none => Except.error "invalid movieId"
  | some movie_id =>
      let te := extract_year_from_title row.title
      let rr := ratingFromTable (lookupRating movie_ratings movie_id)
      let gres := gocGenres (parse_genres row.genres) db
      let eres := enrichStep enricher te.1 te.2 gres.2
      let pres := placeholderStep movie_id eres.1.2.2.1 eres.1.2.2.2 eres.2
      let ures := create_or_update_movie_by_ml_id pres.2 movie_id te.1 te.2
                    (some (descriptionFor te.2)) rr.1 rr.2 eres.1.2.1 eres.1.1
                    (some pres.1.1) (some pres.1.2) (some gres.1)
      Except.ok ures.2

/-- The `for row in reader` loop, threading the catalog and the `processed`
counter; any exception escaping an iteration aborts the whole run
(`seed_movielens.py:281-283` logs and re-raises). -/
def seedLoop (enricher : Option Oracle) (movie_ratings : List (Int × (ℚ × Nat))) :
    List Row → Catalog → Nat → Except String (Nat × Catalog)
  | [], db, processed => Except.ok (processed, db)
  | row :: rows, db, processed =>
      match processRow enricher movie_ratings db row with
      | Except.error e => Except.error e
      | Except.ok db => seedLoop enricher movie_ratings rows db (processed + 1)

/-- `seed_movies` (`seed_movielens.py:202-285`).  `moviesFile = none` models a
missing movies file: the `FileNotFoundError` is logged and re-raised
(`seed_movielens.py:278-280`), failing the run. -/
def seed_movies (moviesFile : Option (List Row)) (enricher : Option Oracle)
    (movie_ratings : List (Int × (ℚ × Nat))) (db : Catalog) :
    Except String (Nat × Catalog) :=
  match moviesFile with
  | none => Except.error "FileNotFoundError"
  | some rows => seedLoop enricher movie_ratings rows db 0

/-! ### Derived observations used by the statements -/

/-- Number of movies carrying a given MovieLens id. -/
def countMl (db : Catalog) (mid : Int) : Nat :=
  (db.movies.filter (fun mv => mv.ml_id == mid)).length

/-- A genre with this name exists in the catalog. -/
def hasGenreN (db : Catalog) (n : Str) : Prop := ∃ g ∈ db.genres, g.name = n

/-- A director with this name exists in the catalog. -/
def hasDirectorN (db : Catalog) (n : Str) : Prop := ∃ d ∈ db.directors, d.name = n

/-- An actor with this name exists in the catalog. -/
def hasActorN (db : Catalog) (n : Str) : Prop := ∃ a ∈ db.actors, a.name = n

/-- A movie with this MovieLens id exists in the catalog. -/
def hasMovieId (db : Catalog) (mid : Int) : Prop := ∃ mv ∈ db.movies, mv.ml_id = mid

/-- The entity-resolution phases extend the genre/director/actor tables on
the right and leave the movie table untouched. -/
def tablesExtend (db db' : Catalog) : Prop :=
  (∃ e, db'.genres = db.genres ++ e)
  ∧ (∃ e, db'.directors = db.directors ++ e)
  ∧ (∃ e, db'.actors = db.actors ++ e)
  ∧ db'.movies = db.movies

/-- Monotone growth of catalog contents: everything present stays present. -/
def catalogLe (db db' : Catalog) : Prop :=
  (∀ n, hasGenreN db n → hasGenreN db' n)
  ∧ (∀ n, hasDirectorN db n → hasDirectorN db' n)
  ∧ (∀ n, hasActorN db n → hasActorN db' n)
  ∧ (∀ m, hasMovieId db m → hasMovieId db' m)

/-- The per-kind entity counts of the catalog (genres, directors, actors, movies). -/
def catalogCounts (db : Catalog) : Nat × Nat × Nat × Nat :=
  (db.genres.length, db.directors.length, db.actors.length, db.movies.length)

/-- The enrichment data a fixed oracle yields for a (title, year) pair:
the director name (if any) and the bounded cast names that the enrichment
step would resolve. -/
def rowEnrichInfo (enricher : Option Oracle) (title : Str) (year : Option Nat) :
    Option Str × List Str :=
  match enricher with
  | none => (none, [])
  | some orc =>
      match orc title year with
      | .raised => (none, [])
      | .searched none => (none, [])
      | .searched (some hit) =>
          match hit.credits with
          | none => (none, [])
          | some credits =>
              (((credits.crew.filter (fun c => c.1 == lit "Director")).head?).map
                 (fun c => c.2),
               credits.cast.take 8)

/-- All director names that processing this row resolves through
`get_or_create_director` (the enriched director, or else the placeholder). -/
def rowDirectorNames (enricher : Option Oracle) (r : Row) (mid : Int) : List Str :=
  let te := extract_year_from_title r.title
  match (rowEnrichInfo enricher te.1 te.2).1 with
  | some dn => [dn]
  | none => [deterministic_placeholder_director mid]

/-- All actor names that processing this row resolves through
`get_or_create_actor` (enriched cast, plus the placeholder cast when no
enriched director was found). -/
def rowActorNames (enricher : Option Oracle) (r : Row) (mid : Int) : List Str :=
  let te := extract_year_from_title r.title
  let info := rowEnrichInfo enricher te.1 te.2
  info.2 ++ (match info.1 with
             | some _ => []
             | none => deterministic_placeholder_actors mid)

/-- The row has already been fully ingested into the catalog: its id parses
and every entity it would resolve is present. -/
def rowPrepared (enricher : Option Oracle) (r : Row) (db : Catalog) : Prop :=
  ∃ mid, pyInt r.movieId = some mid ∧ hasMovieId db mid
    ∧ (∀ n ∈ parse_genres r.genres, hasGenreN db n)
    ∧ (∀ n ∈ rowDirectorNames enricher r mid, hasDirectorN db n)
    ∧ (∀ n ∈ rowActorNames enricher r mid, hasActorN db n)

/-! ### Concrete sample data for the closed instances -/

/-- The sample row of the specification's end-to-end scenario. -/
def heatRow : Row := ⟨lit "1", lit "Heat (1995)", lit "Action|Crime"⟩

/-- A row whose `movieId` column makes `int(row['movieId'])` raise. -/
def badRow : Row := ⟨lit "abc", lit "Broken (2001)", lit "Drama"⟩

/-- A pre-populated one-movie catalog used to exercise the update branch. -/
def demoMovie : Movie :=
  { ml_id := 7, tmdb_id := some 3, title := lit "Old Title",
    release_year := some 1990, description := some (lit "old"),
    rating := none, rating_count := 2, poster_url := some (lit "old.jpg"),
    director := some ⟨lit "Old Director", none⟩,
    actors := [⟨lit "Old Actor", none⟩], genres := [⟨lit "Drama"⟩] }

/-- See `demoMovie`. -/
def demoDb : Catalog :=
  { genres := [⟨lit "Drama"⟩], directors := [⟨lit "Old Director", none⟩],
    actors := [⟨lit "Old Actor", none⟩], movies := [demoMovie] }

/-- The catalog produced by seeding `heatRow` into an empty catalog without
enrichment (used as the concrete starting state of re-run instances). -/
def heatDb : Catalog :=
  match seed_movies (some [heatRow]) none [] emptyCatalog with
  | Except.ok res => res.2
  | Except.error _ => emptyCatalog

/-! ### Basic facts about stripping -/

lemma dropWhile_head_false {α : Type} {p : α → Bool} :
    ∀ {l : List α} {c : α} {cs : List α}, l.dropWhile p = c :: cs → p c = false := by
  intro l
  induction l with
  | nil => intro c cs h; simp [List.dropWhile] at h
  | cons a t ih =>
      intro c cs h
      rw [List.dropWhile_cons] at h
      by_cases hp : p a = true
      · rw [if_pos hp] at h; exact ih h
      · rw [if_neg hp] at h
        injection h with h1 h2
        subst h1
        simpa using hp

lemma dropWhile_idem {α : Type} (p : α → Bool) (l : List α) :
    (l.dropWhile p).dropWhile p = l.dropWhile p := by
  cases h : l.dropWhile p with
  | nil => rfl
  | cons c cs => exact List.dropWhile_cons_of_neg (by simp [dropWhile_head_false h])

/-- Strip is the identity when neither end starts with whitespace. -/
lemma stripChars_eq_self {l : Str} (h1 : l.dropWhile isSpaceChar = l)
    (h2 : l.reverse.dropWhile isSpaceChar = l.reverse) : stripChars l = l := by
  unfold stripChars
  rw [h1, h2, List.reverse_reverse]

lemma stripChars_idem (s : Str) : stripChars (stripChars s) = stripChars s := by
  apply stripChars_eq_self
  · cases h : stripChars s with
    | nil => rfl
    | cons c cs =>
        have hA : s.dropWhile isSpaceChar
            = c :: (cs ++ ((s.dropWhile isSpaceChar).reverse.takeWhile isSpaceChar).reverse) := by
          conv_lhs => rw [← List.reverse_reverse (s.dropWhile isSpaceChar),
            ← List.takeWhile_append_dropWhile isSpaceChar (s.dropWhile isSpaceChar).reverse]
          have h' : ((s.dropWhile isSpaceChar).reverse.dropWhile isSpaceChar).reverse
              = c :: cs := h
          rw [List.reverse_append, h']
          simp
        rw [h] at *
        exact List.dropWhile_cons_of_neg (by simp [dropWhile_head_false hA])
  · have : (stripChars s).reverse
        = (s.dropWhile isSpaceChar).reverse.dropWhile isSpaceChar := by
      unfold stripChars; rw [List.reverse_reverse]
    rw [this]
    exact dropWhile_idem _ _

/-- C7 counterexample.  The code's sentinel is the parenthesized string
`"(no genres listed)"`; the bare string `"no genres listed"` (the sentinel as
quoted by the specification) is parsed as one literal genre name, not as the
empty set. -/
theorem parse_genres_sentinel_counterexample :
    parse_genres (lit "no genres listed") = [lit "no genres listed"]
    ∧ parse_genres (lit "no genres listed") ≠ [] := by
  constructor
  · decide
  · decide

/-- C7 (amended).  The Genre List Parser splits on `|`, trims each token and
drops empty tokens (`"Action|Comedy"` and a noisy variant shown concretely),
and the sentinel meaning "no genres recorded" — the parenthesized literal
`"(no genres listed)"` — as well as the empty string map to the empty list.
Moreover every produced token is nonempty and already trimmed. -/
theorem parse_genres_spec :
    parse_genres (lit "Action|Comedy") = [lit "Action", lit "Comedy"]
    ∧ parse_genres (lit "(no genres listed)") = []
    ∧ parse_genres [] = []
    ∧ parse_genres (lit " Action | Comedy ||") = [lit "Action", lit "Comedy"]
    ∧ ∀ g t, t ∈ parse_genres g → t ≠ [] ∧ stripChars t = t := by
  refine ⟨by decide, by decide, by decide, by decide, ?_⟩
  intro g t ht
  unfold parse_genres at ht
  split at ht
  · simp at ht
  · rw [List.mem_filter] at ht
    obtain ⟨hmem, hne⟩ := ht
    rw [List.mem_map] at hmem
    obtain ⟨raw, _, rfl⟩ := hmem
    refine ⟨?_, stripChars_idem raw⟩
    intro h0
    rw [h0] at hne
    simp at hne

/-- Closed instance discharging the membership hypothesis of
`parse_genres_spec` at the token `Action` of `Action|Comedy`. -/
theorem parse_genres_spec_witness :
    lit "Action" ≠ [] ∧ stripChars (lit "Action") = lit "Action" :=
  parse_genres_spec.2.2.2.2 (lit "Action|Comedy") (lit "Action") (by decide)

/-- C9.  The Placeholder Synthesizer is a pure function of the movie id:
two invocations at the same id give the identical director name and the
identical ordered actor list, and the default cast size is 5. -/
theorem placeholder_synthesizer_deterministic :
    ∀ movie_ml_id : Int,
      deterministic_placeholder_director movie_ml_id
        = deterministic_placeholder_director movie_ml_id
      ∧ deterministic_placeholder_actors movie_ml_id
        = deterministic_placeholder_actors movie_ml_id
      ∧ (deterministic_placeholder_actors movie_ml_id).length = 5 :=
  fun _ => ⟨rfl, rfl,
    by unfold deterministic_placeholder_actors
       rw [List.length_map, List.length_range]⟩

/-! ### Rating aggregation lemmas -/

/-- `addRating` preserves the key of every entry it touches. -/
lemma addRating_key_preserved (e : Int × ℚ) (p : Int × List ℚ) :
    ((if p.1 == e.1 then (p.1, p.2 ++ [e.2]) else p) : Int × List ℚ).1 = p.1 := by
  by_cases h : p.1 == e.1
  · rw [if_pos h]
  · rw [if_neg h]

lemma find?_addRating_of_ne (acc : List (Int × List ℚ)) (e : Int × ℚ) (mid : Int)
    (hne : (e.1 == mid) = false) :
    (addRating acc e).find? (fun p => p.1 == mid)
      = acc.find? (fun p => p.1 == mid) := by
  unfold addRating
  split
  · rw [List.find?_map]
    have hcomp : ((fun p : Int × List ℚ => p.1 == mid)
        ∘ (fun p => if p.1 == e.1 then (p.1, p.2 ++ [e.2]) else p))
        = (fun p : Int × List ℚ => p.1 == mid) := by
      funext p
      simp only [Function.comp]
      rw [addRating_key_preserved e p]
    rw [hcomp]
    cases hf : acc.find? (fun p => p.1 == mid) with
    | none => rfl
    | some p0 =>
        have hp0 : (p0.1 == mid) = true := List.find?_some (p := fun q : Int × List ℚ => q.1 == mid) hf
        have : (p0.1 == e.1) = false := by
          have h1 : p0.1 = mid := by exact_mod_cast eq_of_beq hp0
          subst h1
          cases h2 : (p0.1 == e.1)
          · rfl
          · have : p0.1 = e.1 := eq_of_beq h2
            rw [this] at hne
            rw [beq_self_eq_true] at hne
            exact absurd hne (by simp)
        simp only [Option.map_some']
        rw [if_neg (by simp [this])]
  · rw [List.find?_append]
    have : ([((e.1, [e.2]) : Int × List ℚ)].find? (fun p => p.1 == mid)) = none := by
      rw [List.find?_cons_of_neg _ (by simp [hne])]
      rfl
    rw [this, Option.or_none]

lemma find?_addRating_of_eq_found (acc : List (Int × List ℚ)) (e : Int × ℚ) (mid : Int)
    (p0 : Int × List ℚ) (heq : (e.1 == mid) = true)
    (hf : acc.find? (fun p => p.1 == mid) = some p0) :
    (addRating acc e).find? (fun p => p.1 == mid) = some (p0.1, p0.2 ++ [e.2]) := by
  have hmid : e.1 = mid := eq_of_beq heq
  have hkey : (p0.1 == mid) = true := List.find?_some (p := fun q : Int × List ℚ => q.1 == mid) hf
  have hany : acc.any (fun p => p.1 == e.1) = true := by
    rw [List.any_eq_true]
    exact ⟨p0, List.mem_of_find?_eq_some hf, by rw [hmid]; exact hkey⟩
  unfold addRating
  rw [if_pos hany, List.find?_map]
  have hcomp : ((fun p : Int × List ℚ => p.1 == mid)
      ∘ (fun p => if p.1 == e.1 then (p.1, p.2 ++ [e.2]) else p))
      = (fun p : Int × List ℚ => p.1 == mid) := by
    funext p
    simp only [Function.comp]
    rw [addRating_key_preserved e p]
  rw [hcomp, hf]
  have hp0 : (p0.1 == e.1) = true := by
    rw [hmid]; exact hkey
  simp only [Option.map_some']
  rw [if_pos hp0]

lemma find?_addRating_of_eq_notfound (acc : List (Int × List ℚ)) (e : Int × ℚ) (mid : Int)
    (heq : (e.1 == mid) = true)
    (hf : acc.find? (fun p => p.1 == mid) = none) :
    (addRating acc e).find? (fun p => p.1 == mid) = some (e.1, [e.2]) := by
  have hany : acc.any (fun p => p.1 == e.1) = false := by
    cases h : acc.any (fun p => p.1 == e.1) with
    | false => rfl
    | true =>
        rw [List.any_eq_true] at h
        obtain ⟨p0, hmem, hp0⟩ := h
        rw [List.find?_eq_none] at hf
        have : (p0.1 == mid) = true := by
          have h1 : p0.1 = e.1 := eq_of_beq hp0
          rw [h1]; exact heq
        exact absurd this (by simpa using hf p0 hmem)
  unfold addRating
  rw [if_neg (by simp [hany]), List.find?_append, hf, Option.none_or]
  rw [List.find?_cons_of_pos _ (by simpa using heq)]

/-- Folding the grouping step over an event list, related to the spec-side
view of the events filtered per movie id. -/
lemma foldl_addRating_find (mid : Int) :
    ∀ (events : List (Int × ℚ)) (acc : List (Int × List ℚ)),
      (events.foldl addRating acc).find? (fun p => p.1 == mid) =
        (match acc.find? (fun p => p.1 == mid) with
         | some p0 => some (p0.1, p0.2 ++ (events.filter (fun e => e.1 == mid)).map (fun e => e.2))
         | none =>
             if ((events.filter (fun e => e.1 == mid)).map (fun e => e.2)).isEmpty then none
             else some (mid, (events.filter (fun e => e.1 == mid)).map (fun e => e.2))) := by
  intro events
  induction events with
  | nil =>
      intro acc
      cases hf : acc.find? (fun p => p.1 == mid) with
      | none => simp [hf]
      | some p0 => simp [hf]
  | cons e evs ih =>
      intro acc
      rw [List.foldl_cons, ih (addRating acc e)]
      cases he : (e.1 == mid) with
      | false =>
          rw [find?_addRating_of_ne acc e mid he]
          have hfe : (e :: evs).filter (fun e => e.1 == mid)
              = evs.filter (fun e => e.1 == mid) := by
            simp [List.filter_cons, he]
          rw [hfe]
      | true =>
          have hmid : e.1 = mid := eq_of_beq he
          have hfe : (e :: evs).filter (fun e => e.1 == mid)
              = e :: evs.filter (fun e => e.1 == mid) := by
            simp [List.filter_cons, he]
          rw [hfe]
          cases hf : acc.find? (fun p => p.1 == mid) with
          | some p0 =>
              rw [find?_addRating_of_eq_found acc e mid p0 he hf]
              simp [List.append_assoc]
          | none =>
              rw [find?_addRating_of_eq_notfound acc e mid he hf]
              simp [hmid]

/-- C8.  The Rating Aggregator maps every movie id with at least one event to
the 2-decimal-rounded arithmetic mean of its ratings together with the raw
event count, and contains no entry for ids without events; shown in general
against the filtered per-id event view, and concretely on the sample events
`[(1,4.0),(1,5.0),(2,3.0)]`. -/
theorem calculate_ratings_spec :
    (∀ (events : List (Int × ℚ)) (mid : Int),
        lookupRating (calculate_ratings events) mid =
          (if ((events.filter (fun e => e.1 == mid)).map (fun e => e.2)).isEmpty then none
           else
             some
               (round2 (((events.filter (fun e => e.1 == mid)).map (fun e => e.2)).sum
                   / ((((events.filter (fun e => e.1 == mid)).map (fun e => e.2)).length : Nat) : ℚ)),
                ((events.filter (fun e => e.1 == mid)).map (fun e => e.2)).length)))
    ∧ lookupRating (calculate_ratings [(1, 4), (1, 5), (2, 3)]) 1 = some (4.5, 2)
    ∧ lookupRating (calculate_ratings [(1, 4), (1, 5), (2, 3)]) 2 = some (3, 1)
    ∧ lookupRating (calculate_ratings [(1, 4), (1, 5), (2, 3)]) 3 = none := by
  have main : ∀ (events : List (Int × ℚ)) (mid : Int),
      lookupRating (calculate_ratings events) mid =
        (if ((events.filter (fun e => e.1 == mid)).map (fun e => e.2)).isEmpty then none
         else
           some
             (round2 (((events.filter (fun e => e.1 == mid)).map (fun e => e.2)).sum
                 / ((((events.filter (fun e => e.1 == mid)).map (fun e => e.2)).length : Nat) : ℚ)),
              ((events.filter (fun e => e.1 == mid)).map (fun e => e.2)).length)) := by
    intro events mid
    unfold lookupRating calculate_ratings
    rw [List.find?_map]
    have hcomp : ((fun p : Int × (ℚ × Nat) => p.1 == mid)
        ∘ (fun p : Int × List ℚ => (p.1, (round2 (p.2.sum / (p.2.length : ℚ)), p.2.length))))
        = (fun p : Int × List ℚ => p.1 == mid) := by
      funext p
      rfl
    rw [hcomp, foldl_addRating_find mid events []]
    have hnil : (([] : List (Int × List ℚ)).find? (fun p => p.1 == mid)) = none := rfl
    rw [hnil]
    cases hrs : ((events.filter (fun e => e.1 == mid)).map (fun e => e.2)).isEmpty with
    | true => simp [hrs]
    | false => simp [hrs]
  refine ⟨main, ?_, ?_, ?_⟩
  · rw [main [(1, 4), (1, 5), (2, 3)] 1]
    have hfl : List.map (fun e => e.2)
        (List.filter (fun e => e.1 == (1 : Int)) ([(1, 4), (1, 5), (2, 3)] : List (Int × ℚ)))
        = [4, 5] := by
      simp [List.filter_cons, List.filter_nil]
    rw [hfl]
    norm_num [round2, roundHalfEven]
  · rw [main [(1, 4), (1, 5), (2, 3)] 2]
    have hfl : List.map (fun e => e.2)
        (List.filter (fun e => e.1 == (2 : Int)) ([(1, 4), (1, 5), (2, 3)] : List (Int × ℚ)))
        = [3] := by
      simp [List.filter_cons, List.filter_nil]
    rw [hfl]
    norm_num [round2, roundHalfEven]
  · rw [main [(1, 4), (1, 5), (2, 3)] 3]
    have hfl : List.map (fun e => e.2)
        (List.filter (fun e => e.1 == (3 : Int)) ([(1, 4), (1, 5), (2, 3)] : List (Int × ℚ)))
        = [] := by
      simp [List.filter_cons, List.filter_nil]
    rw [hfl]
    rfl

/-! ### Upsert lemmas -/

lemma updateMovieFields_ml_id (t : Str) (ry : Option Nat) (d : Option Str)
    (r : Option ℚ) (rc : Nat) (pu : Option Str) (ti : Option Nat)
    (dir : Option Director) (acts : Option (List Actor)) (gens : Option (List Genre))
    (mv : Movie) :
    (updateMovieFields t ry d r rc pu ti dir acts gens mv).ml_id = mv.ml_id := by
  cases dir <;> cases acts <;> cases gens <;> rfl

lemma updateMovieFields_actors (t : Str) (ry : Option Nat) (d : Option Str)
    (r : Option ℚ) (rc : Nat) (pu : Option Str) (ti : Option Nat)
    (dir : Option Director) (acts : Option (List Actor)) (gens : Option (List Genre))
    (mv : Movie) :
    (updateMovieFields t ry d r rc pu ti dir acts gens mv).actors
      = (match acts with | some a => a | none => mv.actors) := by
  cases dir <;> cases acts <;> cases gens <;> rfl

lemma updateMovieFields_genres (t : Str) (ry : Option Nat) (d : Option Str)
    (r : Option ℚ) (rc : Nat) (pu : Option Str) (ti : Option Nat)
    (dir : Option Director) (acts : Option (List Actor)) (gens : Option (List Genre))
    (mv : Movie) :
    (updateMovieFields t ry d r rc pu ti dir acts gens mv).genres
      = (match gens with | some g => g | none => mv.genres) := by
  cases dir <;> cases acts <;> cases gens <;> rfl

lemma updateMovieFields_director (t : Str) (ry : Option Nat) (d : Option Str)
    (r : Option ℚ) (rc : Nat) (pu : Option Str) (ti : Option Nat)
    (dir : Option Director) (acts : Option (List Actor)) (gens : Option (List Genre))
    (mv : Movie) :
    (updateMovieFields t ry d r rc pu ti dir acts gens mv).director
      = (match dir with | some dd => some dd | none => mv.director) := by
  cases dir <;> cases acts <;> cases gens <;> rfl

lemma updateMovieFields_scalars (t : Str) (ry : Option Nat) (d : Option Str)
    (r : Option ℚ) (rc : Nat) (pu : Option Str) (ti : Option Nat)
    (dir : Option Director) (acts : Option (List Actor)) (gens : Option (List Genre))
    (mv : Movie) :
    (updateMovieFields t ry d r rc pu ti dir acts gens mv).title = t
    ∧ (updateMovieFields t ry d r rc pu ti dir acts gens mv).release_year = ry
    ∧ (updateMovieFields t ry d r rc pu ti dir acts gens mv).description = d
    ∧ (updateMovieFields t ry d r rc pu ti dir acts gens mv).rating = r
    ∧ (updateMovieFields t ry d r rc pu ti dir acts gens mv).rating_count = rc
    ∧ (updateMovieFields t ry d r rc pu ti dir acts gens mv).poster_url = pu
    ∧ (updateMovieFields t ry d r rc pu ti dir acts gens mv).tmdb_id = ti := by
  cases dir <;> cases acts <;> cases gens <;>
    exact ⟨rfl, rfl, rfl, rfl, rfl, rfl, rfl⟩

lemma updateFirst_length {α : Type} (p : α → Bool) (f : α → α) :
    ∀ l : List α, (updateFirst p f l).length = l.length := by
  intro l
  induction l with
  | nil => rfl
  | cons x xs ih =>
      unfold updateFirst
      by_cases hx : p x = true
      · rw [if_pos hx]; rfl
      · rw [if_neg hx]
        simpa using ih

lemma find?_updateFirst {α : Type} (p : α → Bool) (f : α → α)
    (hpf : ∀ a, p a = true → p (f a) = true) :
    ∀ (l : List α) (a : α), l.find? p = some a →
      (updateFirst p f l).find? p = some (f a) := by
  intro l
  induction l with
  | nil => intro a h; simp at h
  | cons x xs ih =>
      intro a h
      unfold updateFirst
      by_cases hx : p x = true
      · rw [List.find?_cons_of_pos _ hx] at h
        injection h with h1
        subst h1
        rw [if_pos hx]
        exact List.find?_cons_of_pos _ (hpf x hx)
      · rw [List.find?_cons_of_neg _ hx] at h
        rw [if_neg hx]
        rw [List.find?_cons_of_neg _ hx]
        exact ih a h

lemma filter_updateFirst_length {α : Type} (p : α → Bool) (f : α → α)
    (hpf : ∀ a, p a = true → p (f a) = true) :
    ∀ l : List α, ((updateFirst p f l).filter p).length = (l.filter p).length := by
  intro l
  induction l with
  | nil => rfl
  | cons x xs ih =>
      unfold updateFirst
      by_cases hx : p x = true
      · rw [if_pos hx]
        rw [List.filter_cons_of_pos (hpf x hx), List.filter_cons_of_pos hx]
        rfl
      · rw [if_neg hx]
        rw [List.filter_cons_of_neg hx, List.filter_cons_of_neg hx]
        exact ih

/-- Reduction of the upsert in the found case. -/
lemma create_or_update_of_found (db : Catalog) (mid : Int) (t : Str) (ry : Option Nat)
    (d : Option Str) (r : Option ℚ) (rc : Nat) (pu : Option Str) (ti : Option Nat)
    (dir : Option Director) (acts : Option (List Actor)) (gens : Option (List Genre))
    (mv0 : Movie) (hf : db.movies.find? (fun m => m.ml_id == mid) = some mv0) :
    create_or_update_movie_by_ml_id db mid t ry d r rc pu ti dir acts gens
      = (updateMovieFields t ry d r rc pu ti dir acts gens mv0,
         Catalog.mk db.genres db.directors db.actors
           (updateFirst (fun m => m.ml_id == mid)
             (updateMovieFields t ry d r rc pu ti dir acts gens) db.movies)) := by
  unfold create_or_update_movie_by_ml_id
  rw [hf]

/-- Reduction of the upsert in the not-found case. -/
lemma create_or_update_of_notfound (db : Catalog) (mid : Int) (t : Str) (ry : Option Nat)
    (d : Option Str) (r : Option ℚ) (rc : Nat) (pu : Option Str) (ti : Option Nat)
    (dir : Option Director) (acts : Option (List Actor)) (gens : Option (List Genre))
    (hf : db.movies.find? (fun m => m.ml_id == mid) = none) :
    create_or_update_movie_by_ml_id db mid t ry d r rc pu ti dir acts gens
      = (updateMovieFields t ry d r rc pu ti dir acts gens
           (Movie.mk mid ti t ry d r rc pu dir [] []),
         Catalog.mk db.genres db.directors db.actors
           (db.movies
             ++ [updateMovieFields t ry d r rc pu ti dir acts gens
                   (Movie.mk mid ti t ry d r rc pu dir [] [])])) := by
  unfold create_or_update_movie_by_ml_id
  rw [hf]

/-- After any upsert, the first movie carrying the natural key is the
returned record. -/
lemma upsert_find (db : Catalog) (mid : Int) (t : Str) (ry : Option Nat)
    (d : Option Str) (r : Option ℚ) (rc : Nat) (pu : Option Str) (ti : Option Nat)
    (dir : Option Director) (acts : Option (List Actor)) (gens : Option (List Genre)) :
    (create_or_update_movie_by_ml_id db mid t ry d r rc pu ti dir acts gens).2.movies.find?
        (fun m => m.ml_id == mid)
      = some (create_or_update_movie_by_ml_id db mid t ry d r rc pu ti dir acts gens).1 := by
  cases hf : db.movies.find? (fun m => m.ml_id == mid) with
  | some mv0 =>
      rw [create_or_update_of_found db mid t ry d r rc pu ti dir acts gens mv0 hf]
      exact find?_updateFirst _ _
        (fun a ha => by rw [updateMovieFields_ml_id]; exact ha) db.movies mv0 hf
  | none =>
      rw [create_or_update_of_notfound db mid t ry d r rc pu ti dir acts gens hf]
      simp only []
      rw [List.find?_append, hf, Option.none_or]
      apply List.find?_cons_of_pos
      rw [updateMovieFields_ml_id]
      exact beq_self_eq_true mid

/-- C2.  `create_or_update_movie_by_ml_id` is a keyed upsert: the returned
record carries the requested `ml_id` and is the catalog's record for that key;
when a movie with the key exists it is updated in place (same movie count,
same per-key count); when none exists exactly one new movie is appended; and
re-ingesting a key can never introduce a duplicate `ml_id`. -/
theorem create_or_update_upsert (db : Catalog) (mid : Int) (t : Str) (ry : Option Nat)
    (d : Option Str) (r : Option ℚ) (rc : Nat) (pu : Option Str) (ti : Option Nat)
    (dir : Option Director) (acts : Option (List Actor)) (gens : Option (List Genre))
    (mv : Movie) (cat : Catalog)
    (hres : create_or_update_movie_by_ml_id db mid t ry d r rc pu ti dir acts gens
              = (mv, cat)) :
    mv.ml_id = mid
    ∧ cat.movies.find? (fun m => m.ml_id == mid) = some mv
    ∧ (∀ mv0, db.movies.find? (fun m => m.ml_id == mid) = some mv0 →
        mv = updateMovieFields t ry d r rc pu ti dir acts gens mv0
        ∧ cat.movies.length = db.movies.length
        ∧ countMl cat mid = countMl db mid)
    ∧ (db.movies.find? (fun m => m.ml_id == mid) = none →
        cat.movies = db.movies ++ [mv] ∧ countMl db mid = 0 ∧ countMl cat mid = 1)
    ∧ (countMl db mid ≤ 1 → countMl cat mid ≤ 1) := by
  have hpf : ∀ a : Movie, ((fun m => m.ml_id == mid) a) = true →
      ((fun m => m.ml_id == mid) (updateMovieFields t ry d r rc pu ti dir acts gens a)) = true := by
    intro a ha
    show ((updateMovieFields t ry d r rc pu ti dir acts gens a).ml_id == mid) = true
    rw [updateMovieFields_ml_id]
    exact ha
  cases hf : db.movies.find? (fun m => m.ml_id == mid) with
  | some mv0 =>
      rw [create_or_update_of_found db mid t ry d r rc pu ti dir acts gens mv0 hf] at hres
      injection hres with hmv hcat
      subst hmv
      subst hcat
      have hkey : (mv0.ml_id == mid) = true :=
        List.find?_some (p := fun q : Movie => q.ml_id == mid) hf
      have hml : mv0.ml_id = mid := eq_of_beq hkey
      have hcount : countMl
          (Catalog.mk db.genres db.directors db.actors
            (updateFirst (fun m => m.ml_id == mid)
              (updateMovieFields t ry d r rc pu ti dir acts gens) db.movies)) mid
          = countMl db mid := by
        unfold countMl
        exact filter_updateFirst_length _ _ hpf db.movies
      refine ⟨?_, ?_, ?_, ?_, ?_⟩
      · rw [updateMovieFields_ml_id]; exact hml
      · exact find?_updateFirst _ _ hpf db.movies mv0 hf
      · intro mv1 hf1
        -- the case split has rewritten the lookup to `some mv0` in the goal
        injection hf1 with h1
        subst h1
        exact ⟨rfl, updateFirst_length _ _ db.movies, hcount⟩
      · intro h0
        exact absurd h0 (by simp)
      · intro hle
        rw [hcount]
        exact hle
  | none =>
      rw [create_or_update_of_notfound db mid t ry d r rc pu ti dir acts gens hf] at hres
      injection hres with hmv hcat
      subst hmv
      subst hcat
      have hml : (updateMovieFields t ry d r rc pu ti dir acts gens
          (Movie.mk mid ti t ry d r rc pu dir [] [])).ml_id = mid := by
        rw [updateMovieFields_ml_id]
      have hzero : countMl db mid = 0 := by
        unfold countMl
        rw [List.find?_eq_none] at hf
        rw [List.filter_eq_nil_iff.mpr (fun a ha => hf a ha)]
        rfl
      have hone : countMl
          (Catalog.mk db.genres db.directors db.actors
            (db.movies ++ [updateMovieFields t ry d r rc pu ti dir acts gens
              (Movie.mk mid ti t ry d r rc pu dir [] [])])) mid = 1 := by
        unfold countMl
        rw [List.filter_append]
        rw [List.filter_cons_of_pos (by rw [hml]; exact beq_self_eq_true mid),
          List.filter_nil, List.length_append]
        unfold countMl at hzero
        rw [hzero]
        rfl
      refine ⟨hml, ?_, ?_, ?_, ?_⟩
      · dsimp only
        rw [List.find?_append, hf, Option.none_or]
        exact List.find?_cons_of_pos _ (by rw [hml]; exact beq_self_eq_true mid)
      · intro mv1 hf1
        -- the case split has rewritten the lookup to `none` in the goal
        exact absurd hf1 (by simp)
      · intro _
        exact ⟨rfl, hzero, hone⟩
      · intro _
        rw [hone]

/-- Closed instance discharging the hypothesis of `create_or_update_upsert`
on the sample catalog (update branch at the existing key 7). -/
theorem create_or_update_upsert_witness :
    (create_or_update_movie_by_ml_id demoDb 7 (lit "New Title") (some 2001) none none 0
        none none none none none).1.ml_id = 7 :=
  (create_or_update_upsert demoDb 7 (lit "New Title") (some 2001) none none 0 none none
    none none none _ _ rfl).1

/-- C4.  On an existing movie, an upsert that omits the `actors` parameter
leaves the movie's actor set unchanged and an omitted `genres` parameter
leaves the genre set unchanged, while a supplied list (empty or not)
replaces the respective set wholesale. -/
theorem upsert_relationship_frame (db : Catalog) (mid : Int) (t : Str) (ry : Option Nat)
    (d : Option Str) (r : Option ℚ) (rc : Nat) (pu : Option Str) (ti : Option Nat)
    (dir : Option Director) (mv0 : Movie)
    (hf : db.movies.find? (fun m => m.ml_id == mid) = some mv0) :
    (∀ gens, (create_or_update_movie_by_ml_id db mid t ry d r rc pu ti dir none gens).1.actors
        = mv0.actors)
    ∧ (∀ acts, (create_or_update_movie_by_ml_id db mid t ry d r rc pu ti dir acts none).1.genres
        = mv0.genres)
    ∧ (∀ l gens,
        (create_or_update_movie_by_ml_id db mid t ry d r rc pu ti dir (some l) gens).1.actors
          = l)
    ∧ (∀ acts l,
        (create_or_update_movie_by_ml_id db mid t ry d r rc pu ti dir acts (some l)).1.genres
          = l) := by
  refine ⟨?_, ?_, ?_, ?_⟩
  · intro gens
    rw [create_or_update_of_found db mid t ry d r rc pu ti dir none gens mv0 hf]
    dsimp only
    rw [updateMovieFields_actors]
  · intro acts
    rw [create_or_update_of_found db mid t ry d r rc pu ti dir acts none mv0 hf]
    dsimp only
    rw [updateMovieFields_genres]
  · intro l gens
    rw [create_or_update_of_found db mid t ry d r rc pu ti dir (some l) gens mv0 hf]
    dsimp only
    rw [updateMovieFields_actors]
  · intro acts l
    rw [create_or_update_of_found db mid t ry d r rc pu ti dir acts (some l) mv0 hf]
    dsimp only
    rw [updateMovieFields_genres]

/-- Closed instance discharging the hypothesis of `upsert_relationship_frame`
on the sample catalog: omitting actors preserves the stored associations. -/
theorem upsert_relationship_frame_witness :
    (create_or_update_movie_by_ml_id demoDb 7 (lit "New Title") (some 2001) none none 0
        none none none none none).1.actors = demoMovie.actors :=
  (upsert_relationship_frame demoDb 7 (lit "New Title") (some 2001) none none 0
    none none none demoMovie (by decide)).1 none

/-- C10.  The update branch overwrites every scalar field (title, release
year, description, rating, rating count, poster url, tmdb id) with exactly
the supplied value — including `none` — while the stored director reference
is replaced only when a director is supplied and kept otherwise. -/
theorem upsert_update_scalar_overwrite (db : Catalog) (mid : Int) (t : Str)
    (ry : Option Nat) (d : Option Str) (r : Option ℚ) (rc : Nat) (pu : Option Str)
    (ti : Option Nat) (dir : Option Director) (acts : Option (List Actor))
    (gens : Option (List Genre)) (mv0 : Movie)
    (hf : db.movies.find? (fun m => m.ml_id == mid) = some mv0) :
    (create_or_update_movie_by_ml_id db mid t ry d r rc pu ti dir acts gens).1.title = t
    ∧ (create_or_update_movie_by_ml_id db mid t ry d r rc pu ti dir acts gens).1.release_year = ry
    ∧ (create_or_update_movie_by_ml_id db mid t ry d r rc pu ti dir acts gens).1.description = d
    ∧ (create_or_update_movie_by_ml_id db mid t ry d r rc pu ti dir acts gens).1.rating = r
    ∧ (create_or_update_movie_by_ml_id db mid t ry d r rc pu ti dir acts gens).1.rating_count = rc
    ∧ (create_or_update_movie_by_ml_id db mid t ry d r rc pu ti dir acts gens).1.poster_url = pu
    ∧ (create_or_update_movie_by_ml_id db mid t ry d r rc pu ti dir acts gens).1.tmdb_id = ti
    ∧ (create_or_update_movie_by_ml_id db mid t ry d r rc pu ti dir acts gens).1.director
        = (match dir with | some dd => some dd | none => mv0.director) := by
  rw [create_or_update_of_found db mid t ry d r rc pu ti dir acts gens mv0 hf]
  dsimp only
  have hs := updateMovieFields_scalars t ry d r rc pu ti dir acts gens mv0
  exact ⟨hs.1, hs.2.1, hs.2.2.1, hs.2.2.2.1, hs.2.2.2.2.1, hs.2.2.2.2.2.1,
    hs.2.2.2.2.2.2, updateMovieFields_director t ry d r rc pu ti dir acts gens mv0⟩

/-- Closed instance discharging the hypothesis of
`upsert_update_scalar_overwrite` on the sample catalog: re-ingesting without
enrichment resets `tmdb_id` to absent. -/
theorem upsert_update_scalar_overwrite_witness :
    (create_or_update_movie_by_ml_id demoDb 7 (lit "New Title") (some 2001) none none 0
        none none none none none).1.tmdb_id = none :=
  (upsert_update_scalar_overwrite demoDb 7 (lit "New Title") (some 2001) none none 0
    none none none none none demoMovie (by decide)).2.2.2.2.2.2.1

/-! ### Entity-resolution lemmas -/

lemma tablesExtend_refl (db : Catalog) : tablesExtend db db :=
  ⟨⟨[], by simp⟩, ⟨[], by simp⟩, ⟨[], by simp⟩, rfl⟩

lemma tablesExtend_trans {a b c : Catalog} (h1 : tablesExtend a b)
    (h2 : tablesExtend b c) : tablesExtend a c := by
  obtain ⟨⟨g1, hg1⟩, ⟨d1, hd1⟩, ⟨a1, ha1⟩, hm1⟩ := h1
  obtain ⟨⟨g2, hg2⟩, ⟨d2, hd2⟩, ⟨a2, ha2⟩, hm2⟩ := h2
  exact ⟨⟨g1 ++ g2, by rw [hg2, hg1, List.append_assoc]⟩,
         ⟨d1 ++ d2, by rw [hd2, hd1, List.append_assoc]⟩,
         ⟨a1 ++ a2, by rw [ha2, ha1, List.append_assoc]⟩,
         by rw [hm2, hm1]⟩

lemma catalogLe_of_tablesExtend {db db' : Catalog} (h : tablesExtend db db') :
    catalogLe db db' := by
  obtain ⟨⟨g1, hg⟩, ⟨d1, hd⟩, ⟨a1, ha⟩, hm⟩ := h
  refine ⟨?_, ?_, ?_, ?_⟩
  · intro n ⟨x, hx, hxn⟩
    exact ⟨x, by rw [hg]; exact List.mem_append_left _ hx, hxn⟩
  · intro n ⟨x, hx, hxn⟩
    exact ⟨x, by rw [hd]; exact List.mem_append_left _ hx, hxn⟩
  · intro n ⟨x, hx, hxn⟩
    exact ⟨x, by rw [ha]; exact List.mem_append_left _ hx, hxn⟩
  · intro m ⟨x, hx, hxm⟩
    exact ⟨x, by rw [hm]; exact hx, hxm⟩

lemma catalogLe_refl (db : Catalog) : catalogLe db db :=
  ⟨fun _ h => h, fun _ h => h, fun _ h => h, fun _ h => h⟩

lemma catalogLe_trans {a b c : Catalog} (h1 : catalogLe a b) (h2 : catalogLe b c) :
    catalogLe a c :=
  ⟨fun n h => h2.1 n (h1.1 n h),
   fun n h => h2.2.1 n (h1.2.1 n h),
   fun n h => h2.2.2.1 n (h1.2.2.1 n h),
   fun m h => h2.2.2.2 m (h1.2.2.2 m h)⟩

lemma goc_genre_found (db : Catalog) (n : Str) (g : Genre)
    (hf : db.genres.find? (fun x => x.name == n) = some g) :
    get_or_create_genre db n = (g, db) := by
  unfold get_or_create_genre
  rw [hf]

lemma goc_genre_notfound (db : Catalog) (n : Str)
    (hf : db.genres.find? (fun x => x.name == n) = none) :
    get_or_create_genre db n
      = (⟨n⟩, Catalog.mk (db.genres ++ [⟨n⟩]) db.directors db.actors db.movies) := by
  unfold get_or_create_genre
  rw [hf]

lemma goc_genre_effects (db : Catalog) (n : Str) :
    (get_or_create_genre db n).1.name = n
    ∧ tablesExtend db (get_or_create_genre db n).2
    ∧ hasGenreN (get_or_create_genre db n).2 n := by
  cases hf : db.genres.find? (fun x => x.name == n) with
  | some g =>
      rw [goc_genre_found db n g hf]
      have hgn : g.name = n := eq_of_beq (List.find?_some (p := fun x : Genre => x.name == n) hf)
      exact ⟨hgn, tablesExtend_refl db, ⟨g, List.mem_of_find?_eq_some hf, hgn⟩⟩
  | none =>
      rw [goc_genre_notfound db n hf]
      exact ⟨rfl, ⟨⟨[⟨n⟩], rfl⟩, ⟨[], by simp⟩, ⟨[], by simp⟩, rfl⟩,
             ⟨⟨n⟩, by simp, rfl⟩⟩

lemma goc_genre_noop (db : Catalog) (n : Str) (h : hasGenreN db n) :
    get_or_create_genre db n = ((get_or_create_genre db n).1, db) := by
  obtain ⟨g, hm, hn⟩ := h
  have hs : (db.genres.find? (fun x => x.name == n)).isSome = true :=
    List.find?_isSome.mpr ⟨g, hm, by rw [hn]; exact beq_self_eq_true n⟩
  obtain ⟨g', hf⟩ := Option.isSome_iff_exists.mp hs
  rw [goc_genre_found db n g' hf]

lemma goc_director_found (db : Catalog) (n : Str) (bio : Option Str) (d : Director)
    (hf : db.directors.find? (fun x => x.name == n) = some d) :
    get_or_create_director db n bio = (d, db) := by
  unfold get_or_create_director
  rw [hf]

lemma goc_director_notfound (db : Catalog) (n : Str) (bio : Option Str)
    (hf : db.directors.find? (fun x => x.name == n) = none) :
    get_or_create_director db n bio
      = (⟨n, bio⟩, Catalog.mk db.genres (db.directors ++ [⟨n, bio⟩]) db.actors db.movies) := by
  unfold get_or_create_director
  rw [hf]

lemma goc_director_effects (db : Catalog) (n : Str) (bio : Option Str) :
    (get_or_create_director db n bio).1.name = n
    ∧ tablesExtend db (get_or_create_director db n bio).2
    ∧ hasDirectorN (get_or_create_director db n bio).2 n := by
  cases hf : db.directors.find? (fun x => x.name == n) with
  | some d =>
      rw [goc_director_found db n bio d hf]
      have hdn : d.name = n :=
        eq_of_beq (List.find?_some (p := fun x : Director => x.name == n) hf)
      exact ⟨hdn, tablesExtend_refl db, ⟨d, List.mem_of_find?_eq_some hf, hdn⟩⟩
  | none =>
      rw [goc_director_notfound db n bio hf]
      exact ⟨rfl, ⟨⟨[], by simp⟩, ⟨[⟨n, bio⟩], rfl⟩, ⟨[], by simp⟩, rfl⟩,
             ⟨⟨n, bio⟩, by simp, rfl⟩⟩

lemma goc_director_noop (db : Catalog) (n : Str) (bio : Option Str)
    (h : hasDirectorN db n) :
    get_or_create_director db n bio = ((get_or_create_director db n bio).1, db) := by
  obtain ⟨d, hm, hn⟩ := h
  have hs : (db.directors.find? (fun x => x.name == n)).isSome = true :=
    List.find?_isSome.mpr ⟨d, hm, by rw [hn]; exact beq_self_eq_true n⟩
  obtain ⟨d', hf⟩ := Option.isSome_iff_exists.mp hs
  rw [goc_director_found db n bio d' hf]

lemma goc_actor_found (db : Catalog) (n : Str) (bio : Option Str) (a : Actor)
    (hf : db.actors.find? (fun x => x.name == n) = some a) :
    get_or_create_actor db n bio = (a, db) := by
  unfold get_or_create_actor
  rw [hf]

lemma goc_actor_notfound (db : Catalog) (n : Str) (bio : Option Str)
    (hf : db.actors.find? (fun x => x.name == n) = none) :
    get_or_create_actor db n bio
      = (⟨n, bio⟩, Catalog.mk db.genres db.directors (db.actors ++ [⟨n, bio⟩]) db.movies) := by
  unfold get_or_create_actor
  rw [hf]

lemma goc_actor_effects (db : Catalog) (n : Str) (bio : Option Str) :
    (get_or_create_actor db n bio).1.name = n
    ∧ tablesExtend db (get_or_create_actor db n bio).2
    ∧ hasActorN (get_or_create_actor db n bio).2 n := by
  cases hf : db.actors.find? (fun x => x.name == n) with
  | some a =>
      rw [goc_actor_found db n bio a hf]
      have han : a.name = n :=
        eq_of_beq (List.find?_some (p := fun x : Actor => x.name == n) hf)
      exact ⟨han, tablesExtend_refl db, ⟨a, List.mem_of_find?_eq_some hf, han⟩⟩
  | none =>
      rw [goc_actor_notfound db n bio hf]
      exact ⟨rfl, ⟨⟨[], by simp⟩, ⟨[], by simp⟩, ⟨[⟨n, bio⟩], rfl⟩, rfl⟩,
             ⟨⟨n, bio⟩, by simp, rfl⟩⟩

lemma goc_actor_noop (db : Catalog) (n : Str) (bio : Option Str) (h : hasActorN db n) :
    get_or_create_actor db n bio = ((get_or_create_actor db n bio).1, db) := by
  obtain ⟨a, hm, hn⟩ := h
  have hs : (db.actors.find? (fun x => x.name == n)).isSome = true :=
    List.find?_isSome.mpr ⟨a, hm, by rw [hn]; exact beq_self_eq_true n⟩
  obtain ⟨a', hf⟩ := Option.isSome_iff_exists.mp hs
  rw [goc_actor_found db n bio a' hf]

lemma gocGenres_nil (db : Catalog) : gocGenres [] db = ([], db) := rfl

lemma gocGenres_cons (n : Str) (ns : List Str) (db : Catalog) :
    gocGenres (n :: ns) db
      = ((get_or_create_genre db n).1 :: (gocGenres ns (get_or_create_genre db n).2).1,
         (gocGenres ns (get_or_create_genre db n).2).2) := rfl

lemma gocGenres_effects (ns : List Str) :
    ∀ db : Catalog,
      tablesExtend db (gocGenres ns db).2
      ∧ (∀ n ∈ ns, hasGenreN (gocGenres ns db).2 n) := by
  induction ns with
  | nil => intro db; exact ⟨tablesExtend_refl db, by simp⟩
  | cons n ns ih =>
      intro db
      rw [gocGenres_cons]
      obtain ⟨hn1, hext1, hhas1⟩ := goc_genre_effects db n
      obtain ⟨hext2, hhas2⟩ := ih (get_or_create_genre db n).2
      refine ⟨tablesExtend_trans hext1 hext2, ?_⟩
      intro m hm
      rcases List.mem_cons.mp hm with h | h
      · subst h
        exact (catalogLe_of_tablesExtend hext2).1 m hhas1
      · exact hhas2 m h

lemma gocGenres_noop (ns : List Str) :
    ∀ db : Catalog, (∀ n ∈ ns, hasGenreN db n) → (gocGenres ns db).2 = db := by
  induction ns with
  | nil => intro db _; rfl
  | cons n ns ih =>
      intro db h
      rw [gocGenres_cons]
      have h2 : (get_or_create_genre db n).2 = db := by
        rw [goc_genre_noop db n (h n (by simp))]
      rw [h2]
      exact ih db (fun m hm => h m (by simp [hm]))

lemma gocActors_nil (bio : Option Str) (db : Catalog) : gocActors [] bio db = ([], db) := rfl

lemma gocActors_cons (n : Str) (ns : List Str) (bio : Option Str) (db : Catalog) :
    gocActors (n :: ns) bio db
      = ((get_or_create_actor db n bio).1
           :: (gocActors ns bio (get_or_create_actor db n bio).2).1,
         (gocActors ns bio (get_or_create_actor db n bio).2).2) := rfl

lemma gocActors_effects (ns : List Str) (bio : Option Str) :
    ∀ db : Catalog,
      tablesExtend db (gocActors ns bio db).2
      ∧ (∀ n ∈ ns, hasActorN (gocActors ns bio db).2 n)
      ∧ (gocActors ns bio db).1.map (fun a => a.name) = ns := by
  induction ns with
  | nil => intro db; exact ⟨tablesExtend_refl db, by simp, rfl⟩
  | cons n ns ih =>
      intro db
      rw [gocActors_cons]
      obtain ⟨hn1, hext1, hhas1⟩ := goc_actor_effects db n bio
      obtain ⟨hext2, hhas2, hmap2⟩ := ih (get_or_create_actor db n bio).2
      refine ⟨tablesExtend_trans hext1 hext2, ?_, ?_⟩
      · intro m hm
        rcases List.mem_cons.mp hm with h | h
        · subst h
          exact (catalogLe_of_tablesExtend hext2).2.2.1 m hhas1
        · exact hhas2 m h
      · simp only [List.map_cons, hmap2, hn1]

lemma gocActors_noop (ns : List Str) (bio : Option Str) :
    ∀ db : Catalog, (∀ n ∈ ns, hasActorN db n) → (gocActors ns bio db).2 = db := by
  induction ns with
  | nil => intro db _; rfl
  | cons n ns ih =>
      intro db h
      rw [gocActors_cons]
      have h2 : (get_or_create_actor db n bio).2 = db := by
        rw [goc_actor_noop db n bio (h n (by simp))]
      rw [h2]
      exact ih db (fun m hm => h m (by simp [hm]))

/-! ### Enrichment-step lemmas -/

lemma enrich_credits_eq (hit : SearchHit) (credits : Credits) (db : Catalog)
    (hc : hit.credits = some credits) :
    enrich_movie_with_tmdb (some hit) db
      = ((some hit.tmdb_id, posterUrlOf hit.poster_path,
          (enrichDirector credits db).1,
          (gocActors (credits.cast.take 8) none (enrichDirector credits db).2).1),
         (gocActors (credits.cast.take 8) none (enrichDirector credits db).2).2) := by
  unfold enrich_movie_with_tmdb
  dsimp only
  rw [hc]

lemma enrich_nocredits_eq (hit : SearchHit) (db : Catalog) (hc : hit.credits = none) :
    enrich_movie_with_tmdb (some hit) db
      = ((some hit.tmdb_id, posterUrlOf hit.poster_path, none, []), db) := by
  unfold enrich_movie_with_tmdb
  dsimp only
  rw [hc]

lemma enrichDirector_effects (credits : Credits) (db : Catalog) :
    tablesExtend db (enrichDirector credits db).2
    ∧ ((enrichDirector credits db).1).map (fun d => d.name)
        = ((credits.crew.filter (fun c => c.1 == lit "Director")).head?).map (fun c => c.2)
    ∧ (∀ dn, ((credits.crew.filter (fun c => c.1 == lit "Director")).head?).map (fun c => c.2)
          = some dn → hasDirectorN (enrichDirector credits db).2 dn) := by
  unfold enrichDirector
  cases hh : (credits.crew.filter (fun c => c.1 == lit "Director")).head? with
  | none =>
      exact ⟨tablesExtend_refl db, rfl, by intro dn h; simp at h⟩
  | some c =>
      obtain ⟨hname, hext, hhas⟩ := goc_director_effects db c.2 none
      refine ⟨hext, ?_, ?_⟩
      · simp only [Option.map_some']
        rw [hname]
      · intro dn h
        simp only [Option.map_some'] at h
        injection h with h1
        subst h1
        exact hhas

lemma enrichStep_effects (e : Option Oracle) (t : Str) (y : Option Nat) (db : Catalog) :
    tablesExtend db (enrichStep e t y db).2
    ∧ ((enrichStep e t y db).1.2.2.1).map (fun d => d.name) = (rowEnrichInfo e t y).1
    ∧ (enrichStep e t y db).1.2.2.2.map (fun a => a.name) = (rowEnrichInfo e t y).2
    ∧ (∀ dn, (rowEnrichInfo e t y).1 = some dn
        → hasDirectorN (enrichStep e t y db).2 dn)
    ∧ (∀ n ∈ (rowEnrichInfo e t y).2, hasActorN (enrichStep e t y db).2 n) := by
  unfold enrichStep rowEnrichInfo
  cases e with
  | none =>
      exact ⟨tablesExtend_refl db, rfl, rfl, by intro dn h; simp at h, by simp⟩
  | some orc =>
      dsimp only
      cases horc : orc t y with
      | raised =>
          exact ⟨tablesExtend_refl db, rfl, rfl, by intro dn h; simp at h, by simp⟩
      | searched hit? =>
          cases hit? with
          | none =>
              exact ⟨tablesExtend_refl db, rfl, rfl, by intro dn h; simp at h, by simp⟩
          | some hit =>
              dsimp only
              cases hc : hit.credits with
              | none =>
                  rw [enrich_nocredits_eq hit db hc]
                  exact ⟨tablesExtend_refl db, rfl, rfl, by intro dn h; simp at h, by simp⟩
              | some credits =>
                  rw [enrich_credits_eq hit credits db hc]
                  obtain ⟨hextD, hmapD, hhasD⟩ := enrichDirector_effects credits db
                  obtain ⟨hextA, hhasA, hmapA⟩ :=
                    gocActors_effects (credits.cast.take 8) none (enrichDirector credits db).2
                  refine ⟨tablesExtend_trans hextD hextA, hmapD, hmapA, ?_, ?_⟩
                  · intro dn h
                    exact (catalogLe_of_tablesExtend hextA).2.1 dn (hhasD dn h)
                  · exact hhasA

lemma enrichStep_noop (e : Option Oracle) (t : Str) (y : Option Nat) (db : Catalog)
    (hdir : ∀ dn, (rowEnrichInfo e t y).1 = some dn → hasDirectorN db dn)
    (hact : ∀ n ∈ (rowEnrichInfo e t y).2, hasActorN db n) :
    (enrichStep e t y db).2 = db := by
  unfold enrichStep
  unfold rowEnrichInfo at hdir hact
  cases e with
  | none => rfl
  | some orc =>
      dsimp only
      dsimp only at hdir hact
      cases horc : orc t y with
      | raised => rfl
      | searched hit? =>
          rw [horc] at hdir hact
          cases hit? with
          | none => rfl
          | some hit =>
              dsimp only
              dsimp only at hdir hact
              cases hc : hit.credits with
              | none => rw [enrich_nocredits_eq hit db hc]
              | some credits =>
                  rw [hc] at hdir hact
                  dsimp only at hdir hact
                  rw [enrich_credits_eq hit credits db hc]
                  have hD : (enrichDirector credits db).2 = db := by
                    unfold enrichDirector
                    cases hh : (credits.crew.filter (fun c => c.1 == lit "Director")).head? with
                    | none => rfl
                    | some c =>
                        dsimp only
                        have hdc : hasDirectorN db c.2 := by
                          apply hdir c.2
                          rw [hh]
                          rfl
                        rw [goc_director_noop db c.2 none hdc]
                  rw [hD]
                  exact gocActors_noop (credits.cast.take 8) none db hact

/-! ### Placeholder-step lemmas -/

lemma placeholderStep_some_eq (mid : Int) (d : Director) (acts : List Actor)
    (db : Catalog) : placeholderStep mid (some d) acts db = ((d, acts), db) := rfl

lemma create_placeholder_effects (mid : Int) (db : Catalog) :
    tablesExtend db (create_placeholder_data mid db).2
    ∧ (create_placeholder_data mid db).1.1.name = deterministic_placeholder_director mid
    ∧ (create_placeholder_data mid db).1.2.map (fun a => a.name)
        = deterministic_placeholder_actors mid
    ∧ hasDirectorN (create_placeholder_data mid db).2
        (deterministic_placeholder_director mid)
    ∧ (∀ n ∈ deterministic_placeholder_actors mid,
        hasActorN (create_placeholder_data mid db).2 n) := by
  unfold create_placeholder_data
  obtain ⟨hname, hextD, hhasD⟩ :=
    goc_director_effects db (deterministic_placeholder_director mid)
      (some (lit "Placeholder director"))
  obtain ⟨hextA, hhasA, hmapA⟩ :=
    gocActors_effects (deterministic_placeholder_actors mid)
      (some (lit "Placeholder actor"))
      (get_or_create_director db (deterministic_placeholder_director mid)
        (some (lit "Placeholder director"))).2
  exact ⟨tablesExtend_trans hextD hextA, hname, hmapA,
         (catalogLe_of_tablesExtend hextA).2.1 _ hhasD, hhasA⟩

lemma create_placeholder_noop (mid : Int) (db : Catalog)
    (hd : hasDirectorN db (deterministic_placeholder_director mid))
    (ha : ∀ n ∈ deterministic_placeholder_actors mid, hasActorN db n) :
    (create_placeholder_data mid db).2 = db := by
  unfold create_placeholder_data
  dsimp only
  have hD : (get_or_create_director db (deterministic_placeholder_director mid)
      (some (lit "Placeholder director"))).2 = db := by
    rw [goc_director_noop db (deterministic_placeholder_director mid)
      (some (lit "Placeholder director")) hd]
  rw [hD]
  exact gocActors_noop (deterministic_placeholder_actors mid)
    (some (lit "Placeholder actor")) db ha

lemma placeholderStep_none_eq (mid : Int) (acts : List Actor) (db : Catalog) :
    placeholderStep mid none acts db
      = (((create_placeholder_data mid db).1.1,
          if acts.isEmpty then (create_placeholder_data mid db).1.2 else acts),
         (create_placeholder_data mid db).2) := rfl

lemma placeholderStep_effects (mid : Int) (dOpt : Option Director)
    (acts : List Actor) (db : Catalog) :
    tablesExtend db (placeholderStep mid dOpt acts db).2
    ∧ (dOpt = none →
        (placeholderStep mid dOpt acts db).1.1.name
          = deterministic_placeholder_director mid
        ∧ hasDirectorN (placeholderStep mid dOpt acts db).2
            (deterministic_placeholder_director mid)
        ∧ (∀ n ∈ deterministic_placeholder_actors mid,
            hasActorN (placeholderStep mid dOpt acts db).2 n)
        ∧ (acts.isEmpty = true →
            (placeholderStep mid dOpt acts db).1.2.map (fun a => a.name)
              = deterministic_placeholder_actors mid)
        ∧ (acts.isEmpty = false → (placeholderStep mid dOpt acts db).1.2 = acts))
    ∧ (∀ d, dOpt = some d →
        placeholderStep mid dOpt acts db = ((d, acts), db)) := by
  cases dOpt with
  | some d =>
      rw [placeholderStep_some_eq]
      refine ⟨tablesExtend_refl db, ?_, ?_⟩
      · intro h
        exact absurd h (by simp)
      · intro d' h
        injection h with h1
        rw [h1]
  | none =>
      rw [placeholderStep_none_eq]
      obtain ⟨hext, hname, hmap, hhasD, hhasA⟩ := create_placeholder_effects mid db
      refine ⟨hext, ?_, by intro d h; cases h⟩
      intro _
      refine ⟨hname, hhasD, hhasA, ?_, ?_⟩
      · intro hempty
        rw [if_pos hempty]
        exact hmap
      · intro hne
        rw [if_neg (by simp [hne])]

lemma placeholderStep_noop (mid : Int) (dOpt : Option Director) (acts : List Actor)
    (db : Catalog)
    (h : dOpt = none → hasDirectorN db (deterministic_placeholder_director mid)
          ∧ (∀ n ∈ deterministic_placeholder_actors mid, hasActorN db n)) :
    (placeholderStep mid dOpt acts db).2 = db := by
  cases dOpt with
  | some d => rfl
  | none =>
      rw [placeholderStep_none_eq]
      exact create_placeholder_noop mid db (h rfl).1 (h rfl).2

/-! ### Upsert effect lemmas -/

lemma updateFirst_map_ml_id (p : Movie → Bool) (f : Movie → Movie)
    (hpres : ∀ mv, (f mv).ml_id = mv.ml_id) :
    ∀ l : List Movie, (updateFirst p f l).map (fun mv => mv.ml_id)
      = l.map (fun mv => mv.ml_id) := by
  intro l
  induction l with
  | nil => rfl
  | cons x xs ih =>
      unfold updateFirst
      by_cases hx : p x = true
      · rw [if_pos hx]
        simp only [List.map_cons, hpres]
      · rw [if_neg hx]
        simp only [List.map_cons, ih]

lemma hasMovieId_iff_mem_map (db : Catalog) (m : Int) :
    hasMovieId db m ↔ m ∈ db.movies.map (fun mv => mv.ml_id) := by
  constructor
  · intro ⟨mv, hmem, hml⟩
    exact List.mem_map.mpr ⟨mv, hmem, hml⟩
  · intro h
    obtain ⟨mv, hmem, hml⟩ := List.mem_map.mp h
    exact ⟨mv, hmem, hml⟩

lemma hasMovieId_of_find? (db : Catalog) (m : Int) (mv : Movie)
    (hf : db.movies.find? (fun x => x.ml_id == m) = some mv) : hasMovieId db m :=
  ⟨mv, List.mem_of_find?_eq_some hf,
   eq_of_beq (List.find?_some (p := fun x : Movie => x.ml_id == m) hf)⟩

lemma find?_isSome_of_hasMovieId (db : Catalog) (m : Int) (h : hasMovieId db m) :
    (db.movies.find? (fun x => x.ml_id == m)).isSome = true := by
  obtain ⟨mv, hmem, hml⟩ := h
  exact List.find?_isSome.mpr ⟨mv, hmem, by rw [hml]; exact beq_self_eq_true m⟩

lemma upsert_effects (db : Catalog) (mid : Int) (t : Str) (ry : Option Nat)
    (d : Option Str) (r : Option ℚ) (rc : Nat) (pu : Option Str) (ti : Option Nat)
    (dir : Option Director) (acts : Option (List Actor)) (gens : Option (List Genre)) :
    (create_or_update_movie_by_ml_id db mid t ry d r rc pu ti dir acts gens).2.genres
        = db.genres
    ∧ (create_or_update_movie_by_ml_id db mid t ry d r rc pu ti dir acts gens).2.directors
        = db.directors
    ∧ (create_or_update_movie_by_ml_id db mid t ry d r rc pu ti dir acts gens).2.actors
        = db.actors
    ∧ hasMovieId (create_or_update_movie_by_ml_id db mid t ry d r rc pu ti dir acts gens).2 mid
    ∧ (∀ m, hasMovieId db m →
        hasMovieId (create_or_update_movie_by_ml_id db mid t ry d r rc pu ti dir acts gens).2 m)
    ∧ (hasMovieId db mid →
        (create_or_update_movie_by_ml_id db mid t ry d r rc pu ti dir acts gens).2.movies.length
          = db.movies.length) := by
  have hkeep : ∀ mv : Movie,
      (updateMovieFields t ry d r rc pu ti dir acts gens mv).ml_id = mv.ml_id :=
    fun mv => updateMovieFields_ml_id t ry d r rc pu ti dir acts gens mv
  have hfind := upsert_find db mid t ry d r rc pu ti dir acts gens
  cases hf : db.movies.find? (fun m => m.ml_id == mid) with
  | some mv0 =>
      rw [create_or_update_of_found db mid t ry d r rc pu ti dir acts gens mv0 hf] at hfind ⊢
      have hmap := updateFirst_map_ml_id (fun m => m.ml_id == mid)
        (updateMovieFields t ry d r rc pu ti dir acts gens) hkeep db.movies
      refine ⟨rfl, rfl, rfl, hasMovieId_of_find? _ mid _ hfind, ?_, ?_⟩
      · intro m hm
        rw [hasMovieId_iff_mem_map] at hm ⊢
        dsimp only
        rw [hmap]
        exact hm
      · intro _
        exact updateFirst_length _ _ db.movies
  | none =>
      rw [create_or_update_of_notfound db mid t ry d r rc pu ti dir acts gens hf] at hfind ⊢
      refine ⟨rfl, rfl, rfl, hasMovieId_of_find? _ mid _ hfind, ?_, ?_⟩
      · intro m hm
        obtain ⟨mv, hmem, hml⟩ := hm
        exact ⟨mv, List.mem_append_left _ hmem, hml⟩
      · intro hmid
        have := find?_isSome_of_hasMovieId db mid hmid
        rw [hf] at this
        exact absurd this (by simp)

/-! ### Row-processing lemmas -/

lemma upsert_director_of_some (db : Catalog) (mid : Int) (t : Str) (ry : Option Nat)
    (d : Option Str) (r : Option ℚ) (rc : Nat) (pu : Option Str) (ti : Option Nat)
    (dd : Director) (acts : Option (List Actor)) (gens : Option (List Genre)) :
    (create_or_update_movie_by_ml_id db mid t ry d r rc pu ti (some dd) acts gens).1.director
      = some dd := by
  cases hf : db.movies.find? (fun m => m.ml_id == mid) with
  | some mv0 =>
      rw [create_or_update_of_found db mid t ry d r rc pu ti (some dd) acts gens mv0 hf]
      dsimp only
      rw [updateMovieFields_director]
  | none =>
      rw [create_or_update_of_notfound db mid t ry d r rc pu ti (some dd) acts gens hf]
      dsimp only
      rw [updateMovieFields_director]

lemma upsert_actors_of_some (db : Catalog) (mid : Int) (t : Str) (ry : Option Nat)
    (d : Option Str) (r : Option ℚ) (rc : Nat) (pu : Option Str) (ti : Option Nat)
    (dir : Option Director) (l : List Actor) (gens : Option (List Genre)) :
    (create_or_update_movie_by_ml_id db mid t ry d r rc pu ti dir (some l) gens).1.actors
      = l := by
  cases hf : db.movies.find? (fun m => m.ml_id == mid) with
  | some mv0 =>
      rw [create_or_update_of_found db mid t ry d r rc pu ti dir (some l) gens mv0 hf]
      dsimp only
      rw [updateMovieFields_actors]
  | none =>
      rw [create_or_update_of_notfound db mid t ry d r rc pu ti dir (some l) gens hf]
      dsimp only
      rw [updateMovieFields_actors]

lemma upsert_catalogLe (db : Catalog) (mid : Int) (t : Str) (ry : Option Nat)
    (d : Option Str) (r : Option ℚ) (rc : Nat) (pu : Option Str) (ti : Option Nat)
    (dir : Option Director) (acts : Option (List Actor)) (gens : Option (List Genre)) :
    catalogLe db (create_or_update_movie_by_ml_id db mid t ry d r rc pu ti dir acts gens).2 := by
  obtain ⟨hg, hd, ha, _, hmono, _⟩ :=
    upsert_effects db mid t ry d r rc pu ti dir acts gens
  refine ⟨?_, ?_, ?_, hmono⟩
  · intro n ⟨x, hx, hxn⟩
    exact ⟨x, by rw [hg]; exact hx, hxn⟩
  · intro n ⟨x, hx, hxn⟩
    exact ⟨x, by rw [hd]; exact hx, hxn⟩
  · intro n ⟨x, hx, hxn⟩
    exact ⟨x, by rw [ha]; exact hx, hxn⟩

lemma processRow_error (e : Option Oracle) (tbl : List (Int × (ℚ × Nat))) (db : Catalog)
    (row : Row) (h : pyInt row.movieId = none) :
    processRow e tbl db row = Except.error "invalid movieId" := by
  unfold processRow
  rw [h]

lemma processRow_eq (e : Option Oracle) (tbl : List (Int × (ℚ × Nat))) (db : Catalog)
    (row : Row) (mid : Int) (h : pyInt row.movieId = some mid) :
    processRow e tbl db row =
      (let te := extract_year_from_title row.title
       let rr := ratingFromTable (lookupRating tbl mid)
       let gres := gocGenres (parse_genres row.genres) db
       let eres := enrichStep e te.1 te.2 gres.2
       let pres := placeholderStep mid eres.1.2.2.1 eres.1.2.2.2 eres.2
       Except.ok (create_or_update_movie_by_ml_id pres.2 mid te.1 te.2
         (some (descriptionFor te.2)) rr.1 rr.2 eres.1.2.1 eres.1.1
         (some pres.1.1) (some pres.1.2) (some gres.1)).2) := by
  unfold processRow
  rw [h]

lemma processRow_ok (e : Option Oracle) (tbl : List (Int × (ℚ × Nat))) (db : Catalog)
    (row : Row) (mid : Int) (h : pyInt row.movieId = some mid) :
    ∃ db2, processRow e tbl db row = Except.ok db2 := by
  rw [processRow_eq e tbl db row mid h]
  exact ⟨_, rfl⟩

lemma processRow_catalogLe (e : Option Oracle) (tbl : List (Int × (ℚ × Nat)))
    (db : Catalog) (row : Row) (db2 : Catalog)
    (h : processRow e tbl db row = Except.ok db2) : catalogLe db db2 := by
  cases hp : pyInt row.movieId with
  | none =>
      rw [processRow_error e tbl db row hp] at h
      exact absurd h (by simp)
  | some mid =>
      rw [processRow_eq e tbl db row mid hp] at h
      dsimp only at h
      injection h with h2
      subst h2
      set te := extract_year_from_title row.title with hte
      set gres := gocGenres (parse_genres row.genres) db with hgres
      set eres := enrichStep e te.1 te.2 gres.2 with heres
      set pres := placeholderStep mid eres.1.2.2.1 eres.1.2.2.2 eres.2 with hpres
      have le1 : catalogLe db gres.2 := by
        rw [hgres]
        exact catalogLe_of_tablesExtend (gocGenres_effects (parse_genres row.genres) db).1
      have le2 : catalogLe gres.2 eres.2 := by
        rw [heres]
        exact catalogLe_of_tablesExtend (enrichStep_effects e te.1 te.2 gres.2).1
      have le3 : catalogLe eres.2 pres.2 := by
        rw [hpres]
        exact catalogLe_of_tablesExtend
          (placeholderStep_effects mid eres.1.2.2.1 eres.1.2.2.2 eres.2).1
      have le4 := upsert_catalogLe pres.2 mid te.1 te.2 (some (descriptionFor te.2))
        (ratingFromTable (lookupRating tbl mid)).1 (ratingFromTable (lookupRating tbl mid)).2
        eres.1.2.1 eres.1.1 (some pres.1.1) (some pres.1.2) (some gres.1)
      exact catalogLe_trans (catalogLe_trans (catalogLe_trans le1 le2) le3) le4

lemma catalogLe_rowPrepared (e : Option Oracle) (r : Row) {db db2 : Catalog}
    (hle : catalogLe db db2) (h : rowPrepared e r db) : rowPrepared e r db2 := by
  obtain ⟨mid, hp, hM, hG, hD, hA⟩ := h
  exact ⟨mid, hp, hle.2.2.2 mid hM,
         fun n hn => hle.1 n (hG n hn),
         fun n hn => hle.2.1 n (hD n hn),
         fun n hn => hle.2.2.1 n (hA n hn)⟩

lemma processRow_establishes (e : Option Oracle) (tbl : List (Int × (ℚ × Nat)))
    (db : Catalog) (row : Row) (db2 : Catalog)
    (h : processRow e tbl db row = Except.ok db2) : rowPrepared e row db2 := by
  cases hp : pyInt row.movieId with
  | none =>
      rw [processRow_error e tbl db row hp] at h
      exact absurd h (by simp)
  | some mid =>
      rw [processRow_eq e tbl db row mid hp] at h
      dsimp only at h
      injection h with h2
      subst h2
      set te := extract_year_from_title row.title with hte
      set gres := gocGenres (parse_genres row.genres) db with hgres
      set eres := enrichStep e te.1 te.2 gres.2 with heres
      set pres := placeholderStep mid eres.1.2.2.1 eres.1.2.2.2 eres.2 with hpres
      have hgHas : ∀ n ∈ parse_genres row.genres, hasGenreN gres.2 n := by
        rw [hgres]
        exact (gocGenres_effects (parse_genres row.genres) db).2
      have eff := enrichStep_effects e te.1 te.2 gres.2
      rw [← heres] at eff
      have peff := placeholderStep_effects mid eres.1.2.2.1 eres.1.2.2.2 eres.2
      rw [← hpres] at peff
      obtain ⟨ug, ud, ua, uhas, _, _⟩ := upsert_effects pres.2 mid te.1 te.2
        (some (descriptionFor te.2)) (ratingFromTable (lookupRating tbl mid)).1
        (ratingFromTable (lookupRating tbl mid)).2 eres.1.2.1 eres.1.1
        (some pres.1.1) (some pres.1.2) (some gres.1)
      refine ⟨mid, hp, uhas, ?_, ?_, ?_⟩
      · intro n hn
        have h1 := hgHas n hn
        have h2 := (catalogLe_of_tablesExtend eff.1).1 n h1
        have h3 := (catalogLe_of_tablesExtend peff.1).1 n h2
        obtain ⟨g, hgmem, hgname⟩ := h3
        exact ⟨g, by rw [ug]; exact hgmem, hgname⟩
      · intro n hn
        unfold rowDirectorNames at hn
        dsimp only at hn
        rw [← hte] at hn
        cases hinfo : (rowEnrichInfo e te.1 te.2).1 with
        | some dn =>
            rw [hinfo] at hn
            simp only [List.mem_singleton] at hn
            subst hn
            have hD1 : hasDirectorN eres.2 n := eff.2.2.2.1 n hinfo
            have hD2 := (catalogLe_of_tablesExtend peff.1).2.1 n hD1
            obtain ⟨x, hx, hxn⟩ := hD2
            exact ⟨x, by rw [ud]; exact hx, hxn⟩
        | none =>
            rw [hinfo] at hn
            simp only [List.mem_singleton] at hn
            subst hn
            have hdnone : eres.1.2.2.1 = none := by
              have hmap := eff.2.1
              rw [hinfo] at hmap
              exact Option.map_eq_none'.mp hmap
            have hP := (peff.2.1 hdnone).2.1
            obtain ⟨x, hx, hxn⟩ := hP
            exact ⟨x, by rw [ud]; exact hx, hxn⟩
      · intro n hn
        unfold rowActorNames at hn
        dsimp only at hn
        rw [← hte] at hn
        rcases List.mem_append.mp hn with h1 | h1
        · have hA1 := eff.2.2.2.2 n h1
          have hA2 := (catalogLe_of_tablesExtend peff.1).2.2.1 n hA1
          obtain ⟨x, hx, hxn⟩ := hA2
          exact ⟨x, by rw [ua]; exact hx, hxn⟩
        · cases hinfo : (rowEnrichInfo e te.1 te.2).1 with
          | some dn =>
              rw [hinfo] at h1
              simp at h1
          | none =>
              rw [hinfo] at h1
              have hdnone : eres.1.2.2.1 = none := by
                have hmap := eff.2.1
                rw [hinfo] at hmap
                exact Option.map_eq_none'.mp hmap
              have hP := (peff.2.1 hdnone).2.2.1 n h1
              obtain ⟨x, hx, hxn⟩ := hP
              exact ⟨x, by rw [ua]; exact hx, hxn⟩

lemma processRow_prepared (e : Option Oracle) (tbl : List (Int × (ℚ × Nat)))
    (db : Catalog) (row : Row) (hprep : rowPrepared e row db) :
    ∃ db2, processRow e tbl db row = Except.ok db2
      ∧ db2.genres = db.genres
      ∧ db2.directors = db.directors
      ∧ db2.actors = db.actors
      ∧ db2.movies.length = db.movies.length := by
  obtain ⟨mid, hp, hM, hG, hD, hA⟩ := hprep
  rw [processRow_eq e tbl db row mid hp]
  dsimp only
  have hg : (gocGenres (parse_genres row.genres) db).2 = db :=
    gocGenres_noop (parse_genres row.genres) db hG
  rw [hg]
  unfold rowDirectorNames at hD
  unfold rowActorNames at hA
  dsimp only at hD hA
  have hdir : ∀ dn,
      (rowEnrichInfo e (extract_year_from_title row.title).1
        (extract_year_from_title row.title).2).1 = some dn → hasDirectorN db dn := by
    intro dn hdn
    apply hD
    rw [hdn]
    simp
  have hact : ∀ n ∈
      (rowEnrichInfo e (extract_year_from_title row.title).1
        (extract_year_from_title row.title).2).2, hasActorN db n := by
    intro n hn
    apply hA
    exact List.mem_append_left _ hn
  have he : (enrichStep e (extract_year_from_title row.title).1
      (extract_year_from_title row.title).2 db).2 = db :=
    enrichStep_noop e (extract_year_from_title row.title).1
      (extract_year_from_title row.title).2 db hdir hact
  rw [he]
  have hmapD := (enrichStep_effects e (extract_year_from_title row.title).1
      (extract_year_from_title row.title).2 db).2.1
  have hpl : (placeholderStep mid
      (enrichStep e (extract_year_from_title row.title).1
        (extract_year_from_title row.title).2 db).1.2.2.1
      (enrichStep e (extract_year_from_title row.title).1
        (extract_year_from_title row.title).2 db).1.2.2.2 db).2 = db := by
    apply placeholderStep_noop
    intro hdnone
    rw [hdnone] at hmapD
    constructor
    · apply hD
      rw [← hmapD]
      simp
    · intro n hn
      apply hA
      apply List.mem_append_right
      rw [← hmapD]
      exact hn
  rw [hpl]
  refine ⟨_, rfl, ?_, ?_, ?_, ?_⟩
  · exact (upsert_effects db mid _ _ _ _ _ _ _ _ _ _).1
  · exact (upsert_effects db mid _ _ _ _ _ _ _ _ _ _).2.1
  · exact (upsert_effects db mid _ _ _ _ _ _ _ _ _ _).2.2.1
  · exact (upsert_effects db mid _ _ _ _ _ _ _ _ _ _).2.2.2.2.2 hM

/-! ### Run-level lemmas -/

lemma seedLoop_ok (e : Option Oracle) (tbl : List (Int × (ℚ × Nat))) :
    ∀ rows : List Row, (∀ r ∈ rows, (pyInt r.movieId).isSome = true) →
      ∀ (db : Catalog) (k : Nat),
        ∃ db2, seedLoop e tbl rows db k = Except.ok (k + rows.length, db2) := by
  intro rows
  induction rows with
  | nil =>
      intro _ db k
      exact ⟨db, by unfold seedLoop; rw [List.length_nil, Nat.add_zero]⟩
  | cons r rs ih =>
      intro hall db k
      obtain ⟨mid, hmid⟩ := Option.isSome_iff_exists.mp (hall r (by simp))
      obtain ⟨db1, h1⟩ := processRow_ok e tbl db r mid hmid
      obtain ⟨db2, h2⟩ := ih (fun x hx => hall x (by simp [hx])) db1 (k + 1)
      refine ⟨db2, ?_⟩
      unfold seedLoop
      rw [h1]
      dsimp only
      rw [h2, List.length_cons]
      have harith : k + 1 + rs.length = k + (rs.length + 1) := by omega
      rw [harith]

lemma seedLoop_catalogLe (e : Option Oracle) (tbl : List (Int × (ℚ × Nat))) :
    ∀ (rows : List Row) (db : Catalog) (k n : Nat) (db2 : Catalog),
      seedLoop e tbl rows db k = Except.ok (n, db2) → catalogLe db db2 := by
  intro rows
  induction rows with
  | nil =>
      intro db k n db2 h
      unfold seedLoop at h
      injection h with h1
      injection h1 with h2 h3
      subst h3
      exact catalogLe_refl db
  | cons r rs ih =>
      intro db k n db2 h
      unfold seedLoop at h
      cases hpr : processRow e tbl db r with
      | error s =>
          rw [hpr] at h
          exact absurd h (by simp)
      | ok db1 =>
          rw [hpr] at h
          dsimp only at h
          exact catalogLe_trans (processRow_catalogLe e tbl db r db1 hpr)
            (ih db1 (k + 1) n db2 h)

lemma seedLoop_establishes (e : Option Oracle) (tbl : List (Int × (ℚ × Nat))) :
    ∀ (rows : List Row) (db : Catalog) (k n : Nat) (db2 : Catalog),
      seedLoop e tbl rows db k = Except.ok (n, db2) →
        ∀ r ∈ rows, rowPrepared e r db2 := by
  intro rows
  induction rows with
  | nil =>
      intro db k n db2 _ r hr
      simp at hr
  | cons r rs ih =>
      intro db k n db2 h x hx
      unfold seedLoop at h
      cases hpr : processRow e tbl db r with
      | error s =>
          rw [hpr] at h
          exact absurd h (by simp)
      | ok db1 =>
          rw [hpr] at h
          dsimp only at h
          rcases List.mem_cons.mp hx with h1 | h1
          · subst h1
            exact catalogLe_rowPrepared e x (seedLoop_catalogLe e tbl rs db1 (k+1) n db2 h)
              (processRow_establishes e tbl db x db1 hpr)
          · exact ih db1 (k + 1) n db2 h x h1

lemma seedLoop_prepared (e : Option Oracle) (tbl : List (Int × (ℚ × Nat))) :
    ∀ (rows : List Row) (db : Catalog) (k : Nat),
      (∀ r ∈ rows, rowPrepared e r db) →
      ∃ db2, seedLoop e tbl rows db k = Except.ok (k + rows.length, db2)
        ∧ db2.genres = db.genres
        ∧ db2.directors = db.directors
        ∧ db2.actors = db.actors
        ∧ db2.movies.length = db.movies.length := by
  intro rows
  induction rows with
  | nil =>
      intro db k _
      exact ⟨db, by unfold seedLoop; rw [List.length_nil, Nat.add_zero], rfl, rfl, rfl, rfl⟩
  | cons r rs ih =>
      intro db k hall
      obtain ⟨db1, h1, hg1, hd1, ha1, hm1⟩ :=
        processRow_prepared e tbl db r (hall r (by simp))
      have hle : catalogLe db db1 := processRow_catalogLe e tbl db r db1 h1
      obtain ⟨db2, h2, hg2, hd2, ha2, hm2⟩ := ih db1 (k + 1)
        (fun x hx => catalogLe_rowPrepared e x hle (hall x (by simp [hx])))
      refine ⟨db2, ?_, ?_, ?_, ?_, ?_⟩
      · unfold seedLoop
        rw [h1]
        dsimp only
        rw [h2, List.length_cons]
        have harith : k + 1 + rs.length = k + (rs.length + 1) := by omega
        rw [harith]
      · rw [hg2, hg1]
      · rw [hd2, hd1]
      · rw [ha2, ha1]
      · rw [hm2, hm1]

/-- C1 counterexample.  A run whose movies file opens fine but contains one
malformed row (`movieId = "abc"`) terminates as a failed run: the
`int(row['movieId'])` exception is not caught at the per-row boundary but by
the run-level handler, which logs and re-raises.  This contradicts the claim
that the whole run can only fail when the movie source cannot be opened. -/
theorem seed_run_malformed_row_counterexample :
    seed_movies (some [heatRow, badRow]) none [] emptyCatalog
      = Except.error "invalid movieId" := by
  rfl

/-- C1 (amended).  The run fails when the movies file cannot be opened; and
for every run whose rows all carry well-formed movie ids, the run completes
(`Except.ok`) with all rows processed, for every enricher and every
enrichment behaviour — in particular enrichment exceptions are caught at the
per-row boundary and never terminate the batch.  (Malformed rows, however,
do abort the whole run: see the counterexample.) -/
theorem seed_run_failure_modes :
    (∀ (e : Option Oracle) (tbl : List (Int × (ℚ × Nat))) (db : Catalog),
        seed_movies none e tbl db = Except.error "FileNotFoundError")
    ∧ (∀ (rows : List Row) (e : Option Oracle) (tbl : List (Int × (ℚ × Nat)))
          (db : Catalog),
        (∀ r ∈ rows, (pyInt r.movieId).isSome = true) →
        ∃ db2, seed_movies (some rows) e tbl db = Except.ok (rows.length, db2)) := by
  constructor
  · intro e tbl db
    rfl
  · intro rows e tbl db hall
    obtain ⟨db2, h⟩ := seedLoop_ok e tbl rows hall db 0
    refine ⟨db2, ?_⟩
    unfold seed_movies
    dsimp only
    rw [h, Nat.zero_add]

/-- Closed instance discharging the hypothesis of `seed_run_failure_modes`:
a well-formed single-row run completes even though the enricher raises on
every call. -/
theorem seed_run_failure_modes_witness :
    ∃ db2, seed_movies (some [heatRow]) (some (fun _ _ => EnrichOutcome.raised)) []
        emptyCatalog = Except.ok ([heatRow].length, db2) :=
  seed_run_failure_modes.2 [heatRow] (some (fun _ _ => EnrichOutcome.raised)) []
    emptyCatalog (by decide)

/-- C3.  Running the seeding pass a second time over the same rows, the same
ratings table and the same (deterministic) enrichment behaviour, starting
from the catalog state the first run produced, succeeds and creates no new
entity of any kind: the counts of genres, directors, actors and movies after
the second run equal those after the first. -/
theorem seed_movies_idempotent (e : Option Oracle) (tbl : List (Int × (ℚ × Nat)))
    (rows : List Row) (db0 : Catalog) (n1 : Nat) (db1 : Catalog)
    (h1 : seed_movies (some rows) e tbl db0 = Except.ok (n1, db1)) :
    ∃ db2, seed_movies (some rows) e tbl db1 = Except.ok (rows.length, db2)
      ∧ catalogCounts db2 = catalogCounts db1 := by
  unfold seed_movies at h1 ⊢
  dsimp only at h1 ⊢
  have hprep := seedLoop_establishes e tbl rows db0 0 n1 db1 h1
  obtain ⟨db2, hok, hg, hd, ha, hm⟩ := seedLoop_prepared e tbl rows db1 0 hprep
  refine ⟨db2, by rw [hok, Nat.zero_add], ?_⟩
  unfold catalogCounts
  rw [hg, hd, ha, hm]

/-- Closed instance discharging the hypothesis of `seed_movies_idempotent`:
re-running the placeholder-only ingestion of the sample row over the catalog
it produced (`heatDb`) changes no entity count. -/
theorem seed_movies_idempotent_witness :
    ∃ db2, seed_movies (some [heatRow]) none [] heatDb = Except.ok (1, db2)
      ∧ catalogCounts db2 = catalogCounts heatDb :=
  seed_movies_idempotent none [] [heatRow] emptyCatalog 1 heatDb (by rfl)

/-- C5.  When enrichment is enabled but the remote enrichment call fails for
a movie — the enrichment call raises, `search_movie` returns `None` (transport
error, non-success response, or empty result set), `get_movie_credits`
returns `None` (transport error or non-success response), or the credits
payload is an empty result set (no crew, no cast) — the movie is still
ingested: the run over that row completes (`Except.ok`), and the stored movie
carries the deterministic placeholder director and the deterministic
placeholder cast. -/
theorem enrichment_failure_fallback (r : Row) (mid : Int) (orc : Oracle)
    (tbl : List (Int × (ℚ × Nat))) (db : Catalog)
    (hparse : pyInt r.movieId = some mid)
    (hfail :
      orc (extract_year_from_title r.title).1 (extract_year_from_title r.title).2
          = EnrichOutcome.raised
      ∨ orc (extract_year_from_title r.title).1 (extract_year_from_title r.title).2
          = EnrichOutcome.searched none
      ∨ (∃ hit, orc (extract_year_from_title r.title).1 (extract_year_from_title r.title).2
            = EnrichOutcome.searched (some hit) ∧ hit.credits = none)
      ∨ (∃ hit credits,
          orc (extract_year_from_title r.title).1 (extract_year_from_title r.title).2
            = EnrichOutcome.searched (some hit)
          ∧ hit.credits = some credits ∧ credits.crew = [] ∧ credits.cast = [])) :
    ∃ db2, seed_movies (some [r]) (some orc) tbl db = Except.ok (1, db2)
      ∧ ∃ mv, db2.movies.find? (fun m => m.ml_id == mid) = some mv
          ∧ mv.director.map (fun dd => dd.name)
              = some (deterministic_placeholder_director mid)
          ∧ mv.actors.map (fun a => a.name) = deterministic_placeholder_actors mid := by
  obtain ⟨db1, h1⟩ := processRow_ok (some orc) tbl db r mid hparse
  have hrun : seed_movies (some [r]) (some orc) tbl db = Except.ok (1, db1) := by
    unfold seed_movies seedLoop
    rw [h1]
    rfl
  refine ⟨db1, hrun, ?_⟩
  rw [processRow_eq (some orc) tbl db r mid hparse] at h1
  dsimp only at h1
  have hen : ∃ ti po, enrichStep (some orc) (extract_year_from_title r.title).1
      (extract_year_from_title r.title).2 (gocGenres (parse_genres r.genres) db).2
      = ((ti, po, none, []), (gocGenres (parse_genres r.genres) db).2) := by
    rcases hfail with hf | hf | ⟨hit, hf, hc⟩ | ⟨hit, credits, hf, hc, hcrew, hcast⟩
    · refine ⟨none, none, ?_⟩
      unfold enrichStep
      dsimp only
      rw [hf]
    · refine ⟨none, none, ?_⟩
      unfold enrichStep
      dsimp only
      rw [hf]
      rfl
    · refine ⟨some hit.tmdb_id, posterUrlOf hit.poster_path, ?_⟩
      unfold enrichStep
      dsimp only
      rw [hf]
      exact enrich_nocredits_eq hit (gocGenres (parse_genres r.genres) db).2 hc
    · refine ⟨some hit.tmdb_id, posterUrlOf hit.poster_path, ?_⟩
      unfold enrichStep
      dsimp only
      rw [hf]
      dsimp only
      rw [enrich_credits_eq hit credits (gocGenres (parse_genres r.genres) db).2 hc]
      have hD : enrichDirector credits (gocGenres (parse_genres r.genres) db).2
          = (none, (gocGenres (parse_genres r.genres) db).2) := by
        unfold enrichDirector
        rw [hcrew]
        rfl
      rw [hD, hcast]
      rfl
  obtain ⟨ti, po, hen⟩ := hen
  rw [hen] at h1
  dsimp only at h1
  injection h1 with h1
  subst h1
  refine ⟨_, upsert_find _ mid _ _ _ _ _ _ _ _ _ _, ?_, ?_⟩
  · rw [upsert_director_of_some]
    rw [Option.map_some']
    have hP := (placeholderStep_effects mid none []
      (gocGenres (parse_genres r.genres) db).2).2.1 rfl
    rw [hP.1]
  · rw [upsert_actors_of_some]
    have hP := (placeholderStep_effects mid none []
      (gocGenres (parse_genres r.genres) db).2).2.1 rfl
    exact hP.2.2.2.1 rfl

/-- Closed instance discharging the hypotheses of
`enrichment_failure_fallback` at the sample row with an oracle whose search
always fails. -/
theorem enrichment_failure_fallback_witness :
    ∃ db2, seed_movies (some [heatRow])
        (some (fun _ _ => EnrichOutcome.searched none)) [] emptyCatalog
        = Except.ok (1, db2)
      ∧ ∃ mv, db2.movies.find? (fun m => m.ml_id == 1) = some mv
          ∧ mv.director.map (fun dd => dd.name)
              = some (deterministic_placeholder_director 1)
          ∧ mv.actors.map (fun a => a.name) = deterministic_placeholder_actors 1 :=
  enrichment_failure_fallback heatRow 1 (fun _ _ => EnrichOutcome.searched none) []
    emptyCatalog (by decide) (Or.inr (Or.inl rfl))
